import Mathlib

/-
Verification of the atomic display commit helpers (drm_atomic_helper.c) and
the i915 GPU page-table layer (i915_gem_gtt.c), as a shallow embedding.
Machine integers are modelled as Nat; the widths in play (32/64 bit) are never
exceeded on the domains quantified over, so no explicit truncation is needed,
except where the source itself masks (gen8 pdpe/pde/pte extraction).
-/

/-! ## Bit-layout constants.

Modelled from the spec: the numeric values below come from the repository
headers (i915_gem_gtt.h, i915_drv.h, asm/pgtable_types.h), which are not under
src/; only their uses are.  The spec (section 4.6) describes them as the
per-generation "present/writable" bits and cache-policy bit patterns. -/

def PAGE_SHIFT : Nat := 12

def PAGE_SIZE : Nat := 4096

/-- Cache levels, enum i915_cache_level: NONE = 0, LLC = 1, L3_LLC = 2, WT = 3.
Modelled as plain Nat so that malformed (out-of-enum) values can be expressed. -/
def I915_CACHE_NONE : Nat := 0

def I915_CACHE_LLC : Nat := 1

def I915_CACHE_L3_LLC : Nat := 2

def I915_CACHE_WT : Nat := 3

def GEN6_PTE_VALID : Nat := 1

def GEN6_PTE_UNCACHED : Nat := 2

def GEN6_PTE_CACHE_LLC : Nat := 4

def GEN7_PTE_CACHE_L3_LLC : Nat := 6

def BYT_PTE_WRITEABLE : Nat := 2

def BYT_PTE_SNOOPED_BY_CPU_CACHES : Nat := 4

def PTE_READ_ONLY : Nat := 1

/-- HSW_CACHEABILITY_CONTROL(bits) = (((bits) & 0x7) << 1) | (((bits) & 0x8) << (11 - 3)). -/
def hswCacheabilityControl (bits : Nat) : Nat :=
  ((bits &&& 0x7) <<< 1) ||| ((bits &&& 0x8) <<< 8)

def HSW_WB_LLC_AGE3 : Nat := hswCacheabilityControl 0x2

def HSW_WT_ELLC_LLC_AGE3 : Nat := hswCacheabilityControl 0x7

def HSW_WB_ELLC_LLC_AGE3 : Nat := hswCacheabilityControl 0x8

/-- GEN6_GTT_ADDR_ENCODE(addr) = (addr) | (((addr) >> 28) & 0xff0). -/
def GEN6_PTE_ADDR_ENCODE (addr : Nat) : Nat := addr ||| ((addr >>> 28) &&& 0xff0)

/-- HSW_GTT_ADDR_ENCODE(addr) = (addr) | (((addr) >> 28) & 0x7f0). -/
def HSW_PTE_ADDR_ENCODE (addr : Nat) : Nat := addr ||| ((addr >>> 28) &&& 0x7f0)

def PAGE_PRESENT : Nat := 1

def PAGE_RW : Nat := 2

/-- PPAT_UNCACHED_INDEX = _PAGE_PWT | _PAGE_PCD = 0x8 | 0x10. -/
def PPAT_UNCACHED_INDEX : Nat := 0x18

/-- PPAT_CACHED_INDEX = _PAGE_PAT = bit 7. -/
def PPAT_CACHED_INDEX : Nat := 0x80

/-- PPAT_DISPLAY_ELLC_INDEX = _PAGE_PCD = bit 4. -/
def PPAT_DISPLAY_ELLC_INDEX : Nat := 0x10

def PPAT_CACHED_PDE_INDEX : Nat := 0

/-! ## PTE encode functions (PTEEncoder core, i915_gem_gtt.c lines 79-211). -/

/-- gen8_pte_encode: valid selects _PAGE_PRESENT | _PAGE_RW; switch on level with
arms I915_CACHE_NONE, I915_CACHE_WT and a default arm giving the cached index. -/
def gen8_pte_encode (addr : Nat) (level : Nat) (valid : Bool) : Nat :=
  let pte := if valid then PAGE_PRESENT ||| PAGE_RW else 0
  let pte := pte ||| addr
  if level = I915_CACHE_NONE then pte ||| PPAT_UNCACHED_INDEX
  else if level = I915_CACHE_WT then pte ||| PPAT_DISPLAY_ELLC_INDEX
  else pte ||| PPAT_CACHED_INDEX

/-- snb_pte_encode: switch arms L3_LLC/LLC, NONE; the default arm only fires
WARN_ON(1) and adds no cache bits. -/
def snb_pte_encode (addr : Nat) (level : Nat) (valid : Bool) (unused : Nat) : Nat :=
  let pte := if valid then GEN6_PTE_VALID else 0
  let pte := pte ||| GEN6_PTE_ADDR_ENCODE addr
  if level = I915_CACHE_L3_LLC ∨ level = I915_CACHE_LLC then pte ||| GEN6_PTE_CACHE_LLC
  else if level = I915_CACHE_NONE then pte ||| GEN6_PTE_UNCACHED
  else pte

/-- Whether the WARN_ON(1) in the default arm of snb_pte_encode fires. -/
def snb_pte_warn (level : Nat) : Bool :=
  ¬(level = I915_CACHE_L3_LLC ∨ level = I915_CACHE_LLC) ∧ ¬(level = I915_CACHE_NONE)

/-- ivb_pte_encode: arms L3_LLC, LLC, NONE; default arm fires WARN_ON(1), no bits. -/
def ivb_pte_encode (addr : Nat) (level : Nat) (valid : Bool) (unused : Nat) : Nat :=
  let pte := if valid then GEN6_PTE_VALID else 0
  let pte := pte ||| GEN6_PTE_ADDR_ENCODE addr
  if level = I915_CACHE_L3_LLC then pte ||| GEN7_PTE_CACHE_L3_LLC
  else if level = I915_CACHE_LLC then pte ||| GEN6_PTE_CACHE_LLC
  else if level = I915_CACHE_NONE then pte ||| GEN6_PTE_UNCACHED
  else pte

/-- Whether the WARN_ON(1) in the default arm of ivb_pte_encode fires. -/
def ivb_pte_warn (level : Nat) : Bool :=
  ¬(level = I915_CACHE_L3_LLC) ∧ ¬(level = I915_CACHE_LLC) ∧ ¬(level = I915_CACHE_NONE)

/-- byt_pte_encode: writeable unless PTE_READ_ONLY flag; snooped unless NONE. -/
def byt_pte_encode (addr : Nat) (level : Nat) (valid : Bool) (flags : Nat) : Nat :=
  let pte := if valid then GEN6_PTE_VALID else 0
  let pte := pte ||| GEN6_PTE_ADDR_ENCODE addr
  let pte := if flags &&& PTE_READ_ONLY = 0 then pte ||| BYT_PTE_WRITEABLE else pte
  if level ≠ I915_CACHE_NONE then pte ||| BYT_PTE_SNOOPED_BY_CPU_CACHES else pte

/-- hsw_pte_encode: HSW address encoding; WB LLC age-3 unless NONE. -/
def hsw_pte_encode (addr : Nat) (level : Nat) (valid : Bool) (unused : Nat) : Nat :=
  let pte := if valid then GEN6_PTE_VALID else 0
  let pte := pte ||| HSW_PTE_ADDR_ENCODE addr
  if level ≠ I915_CACHE_NONE then pte ||| HSW_WB_LLC_AGE3 else pte

/-- iris_pte_encode: arms NONE (no bits), WT, default cached. -/
def iris_pte_encode (addr : Nat) (level : Nat) (valid : Bool) (unused : Nat) : Nat :=
  let pte := if valid then GEN6_PTE_VALID else 0
  let pte := pte ||| HSW_PTE_ADDR_ENCODE addr
  if level = I915_CACHE_NONE then pte
  else if level = I915_CACHE_WT then pte ||| HSW_WT_ELLC_LLC_AGE3
  else pte ||| HSW_WB_ELLC_LLC_AGE3

/-! ## Gen6 (2-level) PPGTT address-space operations
(i915_gem_gtt.c lines 839-904). The page-table backing is modelled as a total
function: table index (pde slot) → entry slot → raw 32-bit entry. kmap_atomic /
kunmap_atomic are temporary mappings with no effect on the stored entries. -/

def I915_PPGTT_PT_ENTRIES : Nat := 1024

def GEN6_PPGTT_PD_ENTRIES : Nat := 512

def Gen6PT : Type := Nat → Nat → Nat

/-- The per-address-space data gen6 clear/insert read: the per-generation
pte_encode hook and the scratch page address (vm→pte_encode, vm→scratch.addr). -/
structure Gen6VM where
  pte_encode : Nat → Nat → Bool → Nat → Nat
  scratchAddr : Nat

/-- Inner for-loop writing value v into slots [i, i+count) of one table page. -/
def ptWriteSeq (tbl : Nat → Nat) (i count v : Nat) : Nat → Nat :=
  match count with
  | 0 => tbl
  | c+1 => ptWriteSeq (fun j => if j = i then v else tbl j) (i+1) c v

/-- The while (num_entries) loop of gen6_ppgtt_clear_range. Each iteration
clamps last_pte to the table size, fills [first_pte, last_pte) of the mapped
table page, then moves to slot 0 of the next table. Fuel bounds the recursion;
num_entries units suffice since every iteration clears at least one entry. -/
def gen6ClearWhile (pt : Gen6PT) (scratch_pte : Nat) : Nat → Nat → Nat → Nat → Gen6PT
  | _, _, _, 0 => pt
  | act_pt, first_pte, num, fuel+1 =>
    if h0 : num = 0 then pt
    else
      let last_pte := if first_pte + num > I915_PPGTT_PT_ENTRIES then I915_PPGTT_PT_ENTRIES
                      else first_pte + num
      let pt2 : Gen6PT := fun t =>
        if t = act_pt then ptWriteSeq (pt act_pt) first_pte (last_pte - first_pte) scratch_pte
        else pt t
      gen6ClearWhile pt2 scratch_pte (act_pt + 1) 0 (num - (last_pte - first_pte)) fuel

/-- gen6_ppgtt_clear_range: decompose start into (act_pt, first_pte), encode the
scratch entry once with the vm pte_encode hook, then run the chunked loop. -/
def gen6_ppgtt_clear_range (vm : Gen6VM) (pt : Gen6PT)
    (start length : Nat) (use_scratch : Bool) : Gen6PT :=
  let first_entry := start >>> PAGE_SHIFT
  let num_entries := length >>> PAGE_SHIFT
  let act_pt := first_entry / I915_PPGTT_PT_ENTRIES
  let first_pte := first_entry % I915_PPGTT_PT_ENTRIES
  let scratch_pte := vm.pte_encode vm.scratchAddr I915_CACHE_LLC use_scratch 0
  gen6ClearWhile pt scratch_pte act_pt first_pte num_entries num_entries

/-- The for_each_sg_page loop of gen6_ppgtt_insert_entries, one dma address per
page in virtual order, advancing across table boundaries. -/
def gen6InsertLoop (vm : Gen6VM) (cache_level flags : Nat) :
    List Nat → Gen6PT → Nat → Nat → Gen6PT
  | [], pt, _, _ => pt
  | addr :: rest, pt, act_pt, act_pte =>
    let entry := vm.pte_encode addr cache_level true flags
    let pt2 : Gen6PT := fun t =>
      if t = act_pt then (fun j => if j = act_pte then entry else pt act_pt j) else pt t
    if act_pte + 1 = I915_PPGTT_PT_ENTRIES then
      gen6InsertLoop vm cache_level flags rest pt2 (act_pt + 1) 0
    else
      gen6InsertLoop vm cache_level flags rest pt2 act_pt (act_pte + 1)

/-- gen6_ppgtt_insert_entries: the scatter-gather page list is modelled as the
list of per-page dma addresses the iterator yields. -/
def gen6_ppgtt_insert_entries (vm : Gen6VM) (pt : Gen6PT) (pages : List Nat)
    (start cache_level flags : Nat) : Gen6PT :=
  let first_entry := start >>> PAGE_SHIFT
  gen6InsertLoop vm cache_level flags pages pt
    (first_entry / I915_PPGTT_PT_ENTRIES) (first_entry % I915_PPGTT_PT_ENTRIES)

theorem ptWriteSeq_get (count : Nat) :
    ∀ (tbl : Nat → Nat) (i v j : Nat),
      ptWriteSeq tbl i count v j = if i ≤ j ∧ j < i + count then v else tbl j := by
  induction count with
  | zero =>
    intro tbl i v j
    simp only [ptWriteSeq]
    rw [if_neg]
    omega
  | succ c ih =>
    intro tbl i v j
    simp only [ptWriteSeq]
    rw [ih]
    by_cases hj : j = i
    · subst hj
      split_ifs <;> simp_all <;> omega
    · split_ifs <;> simp_all <;> omega

theorem gen6ClearWhile_get (fuel : Nat) :
    ∀ (pt : Gen6PT) (v a f num t e : Nat), num ≤ fuel →
      f < I915_PPGTT_PT_ENTRIES → e < I915_PPGTT_PT_ENTRIES →
      gen6ClearWhile pt v a f num fuel t e =
        if a * 1024 + f ≤ t * 1024 + e ∧ t * 1024 + e < a * 1024 + f + num then v
        else pt t e := by
  induction fuel with
  | zero =>
    intro pt v a f num t e hnum hf he
    have : num = 0 := by omega
    subst this
    simp only [gen6ClearWhile]
    rw [if_neg]
    omega
  | succ fuel ih =>
    intro pt v a f num t e hnum hf he
    by_cases h0 : num = 0
    · subst h0
      simp only [gen6ClearWhile, dif_pos]
      rw [if_neg]
      omega
    · rw [gen6ClearWhile, dif_neg h0]
      simp only [I915_PPGTT_PT_ENTRIES] at *
      have htp : t = a ∨ t * 1024 + e < a * 1024 ∨ (a + 1) * 1024 ≤ t * 1024 + e := by
        rcases Nat.lt_trichotomy t a with h | h | h
        · right
          left
          have : t * 1024 + 1024 ≤ a * 1024 := by
            have := Nat.mul_le_mul_right 1024 (show t + 1 ≤ a by omega)
            omega
          omega
        · left
          exact h
        · right
          right
          have := Nat.mul_le_mul_right 1024 (show a + 1 ≤ t by omega)
          omega
      by_cases hcl : f + num > 1024
      · simp only [if_pos hcl]
        rw [ih _ _ _ _ _ _ _ (by omega) (by omega) (by omega)]
        rcases htp with ht | ht | ht
        · subst ht
          rw [if_pos rfl, ptWriteSeq_get]
          split_ifs <;> first | rfl | omega
        · have hne : ¬(t = a) := by omega
          rw [if_neg hne]
          split_ifs <;> first | rfl | omega
        · have hne : ¬(t = a) := by omega
          rw [if_neg hne]
          split_ifs <;> first | rfl | omega
      · simp only [if_neg hcl]
        rw [ih _ _ _ _ _ _ _ (by omega) (by omega) (by omega)]
        rcases htp with ht | ht | ht
        · subst ht
          rw [if_pos rfl, ptWriteSeq_get]
          split_ifs <;> first | rfl | omega
        · have hne : ¬(t = a) := by omega
          rw [if_neg hne]
          split_ifs <;> first | rfl | omega
        · have hne : ¬(t = a) := by omega
          rw [if_neg hne]
          split_ifs <;> first | rfl | omega

theorem gen6InsertLoop_get (vm : Gen6VM) (lvl fl : Nat) (pages : List Nat) :
    ∀ (pt : Gen6PT) (a f t e : Nat), f < I915_PPGTT_PT_ENTRIES →
      e < I915_PPGTT_PT_ENTRIES →
      gen6InsertLoop vm lvl fl pages pt a f t e =
        if a * 1024 + f ≤ t * 1024 + e ∧ t * 1024 + e < a * 1024 + f + pages.length then
          vm.pte_encode (pages.getD (t * 1024 + e - (a * 1024 + f)) 0) lvl true fl
        else pt t e := by
  induction pages with
  | nil =>
    intro pt a f t e hf he
    simp only [gen6InsertLoop, List.length_nil]
    rw [if_neg]
    omega
  | cons addr rest ih =>
    intro pt a f t e hf he
    simp only [I915_PPGTT_PT_ENTRIES] at *
    have hsame : ∀ pt2 : Gen6PT,
        (∀ u d, pt2 u d = if u = a ∧ d = f then vm.pte_encode addr lvl true fl else pt u d) →
        (if a * 1024 + f + 1 ≤ t * 1024 + e ∧ t * 1024 + e < a * 1024 + f + 1 + rest.length then
          vm.pte_encode (rest.getD (t * 1024 + e - (a * 1024 + f + 1)) 0) lvl true fl
         else pt2 t e) =
        if a * 1024 + f ≤ t * 1024 + e ∧ t * 1024 + e < a * 1024 + f + (addr :: rest).length then
          vm.pte_encode ((addr :: rest).getD (t * 1024 + e - (a * 1024 + f)) 0) lvl true fl
        else pt t e := by
      intro pt2 hpt2
      rw [hpt2]
      have htp : (t = a ∧ e = f) ∨ t * 1024 + e < a * 1024 + f ∨ a * 1024 + f + 1 ≤ t * 1024 + e := by
        rcases Nat.lt_trichotomy t a with h | h | h
        · right
          left
          have := Nat.mul_le_mul_right 1024 (show t + 1 ≤ a by omega)
          omega
        · subst h
          by_cases hef : e = f
          · left
            exact ⟨rfl, hef⟩
          · right
            omega
        · right
          right
          have := Nat.mul_le_mul_right 1024 (show a + 1 ≤ t by omega)
          omega
      rcases htp with ⟨ht, hef⟩ | ht | ht
      · subst ht
        subst hef
        rw [if_neg (by omega), if_pos (by simp), if_pos (by simp only [List.length_cons]; omega)]
        simp
      · rw [if_neg (by omega), if_neg (by simp only [not_and]; intro h; omega),
            if_neg (by simp only [List.length_cons]; omega)]
      · by_cases hcov : t * 1024 + e < a * 1024 + f + 1 + rest.length
        · rw [if_pos ⟨ht, hcov⟩, if_pos (by simp only [List.length_cons]; omega)]
          have harg : t * 1024 + e - (a * 1024 + f) = (t * 1024 + e - (a * 1024 + f + 1)) + 1 := by
            omega
          rw [harg, List.getD_cons_succ]
        · rw [if_neg (by omega), if_neg (by simp only [not_and]; intro h; omega),
            if_neg (by simp only [List.length_cons]; omega)]
    simp only [gen6InsertLoop]
    by_cases hadv : f + 1 = 1024
    · rw [if_pos (by simp only [I915_PPGTT_PT_ENTRIES]; exact hadv)]
      rw [ih _ _ _ _ _ (by omega) (by omega)]
      have hbase : (a + 1) * 1024 + 0 = a * 1024 + f + 1 := by omega
      rw [hbase]
      apply hsame
      intro u d
      show (if u = a then (fun j => if j = f then vm.pte_encode addr lvl true fl else pt a j)
            else pt u) d = _
      by_cases hu : u = a
      · subst hu
        rw [if_pos rfl]
        show (if d = f then vm.pte_encode addr lvl true fl else pt u d) = _
        by_cases hd : d = f
        · rw [if_pos hd, if_pos ⟨rfl, hd⟩]
        · rw [if_neg hd, if_neg (fun hc => hd hc.2)]
      · rw [if_neg hu, if_neg (fun hc => hu hc.1)]
    · rw [if_neg (by simp only [I915_PPGTT_PT_ENTRIES]; exact hadv)]
      rw [ih _ _ _ _ _ (by omega) (by omega)]
      have hbase : a * 1024 + (f + 1) = a * 1024 + f + 1 := by omega
      rw [hbase]
      apply hsame
      intro u d
      show (if u = a then (fun j => if j = f then vm.pte_encode addr lvl true fl else pt a j)
            else pt u) d = _
      by_cases hu : u = a
      · subst hu
        rw [if_pos rfl]
        show (if d = f then vm.pte_encode addr lvl true fl else pt u d) = _
        by_cases hd : d = f
        · rw [if_pos hd, if_pos ⟨rfl, hd⟩]
        · rw [if_neg hd, if_neg (fun hc => hd hc.2)]
      · rw [if_neg hu, if_neg (fun hc => hu hc.1)]

theorem gen6_ppgtt_clear_range_get (vm : Gen6VM) (pt : Gen6PT)
    (start length : Nat) (u : Bool) (t e : Nat) (he : e < I915_PPGTT_PT_ENTRIES) :
    gen6_ppgtt_clear_range vm pt start length u t e =
      if start >>> 12 ≤ t * 1024 + e ∧ t * 1024 + e < start >>> 12 + (length >>> 12) then
        vm.pte_encode vm.scratchAddr I915_CACHE_LLC u 0
      else pt t e := by
  simp only [gen6_ppgtt_clear_range, PAGE_SHIFT]
  rw [gen6ClearWhile_get _ _ _ _ _ _ _ _ (Nat.le_refl _)
        (Nat.mod_lt _ (by simp [I915_PPGTT_PT_ENTRIES])) he]
  have hdm : start >>> 12 / I915_PPGTT_PT_ENTRIES * 1024 +
      start >>> 12 % I915_PPGTT_PT_ENTRIES = start >>> 12 := by
    simp only [I915_PPGTT_PT_ENTRIES]
    omega
  rw [hdm]

theorem gen6_ppgtt_insert_entries_get (vm : Gen6VM) (pt : Gen6PT) (pages : List Nat)
    (start lvl fl : Nat) (t e : Nat) (he : e < I915_PPGTT_PT_ENTRIES) :
    gen6_ppgtt_insert_entries vm pt pages start lvl fl t e =
      if start >>> 12 ≤ t * 1024 + e ∧ t * 1024 + e < start >>> 12 + pages.length then
        vm.pte_encode (pages.getD (t * 1024 + e - start >>> 12) 0) lvl true fl
      else pt t e := by
  simp only [gen6_ppgtt_insert_entries, PAGE_SHIFT]
  rw [gen6InsertLoop_get _ _ _ _ _ _ _ _ _
        (Nat.mod_lt _ (by simp [I915_PPGTT_PT_ENTRIES])) he]
  have hdm : start >>> 12 / I915_PPGTT_PT_ENTRIES * 1024 +
      start >>> 12 % I915_PPGTT_PT_ENTRIES = start >>> 12 := by
    simp only [I915_PPGTT_PT_ENTRIES]
    omega
  rw [hdm]

/-! ## Gen8 (pseudo multi-level) PPGTT address-space operations
(i915_gem_gtt.c lines 254-339). Backing modelled as pdpe → pde → slot → entry. -/

def GEN8_PDES_PER_PAGE : Nat := 512

def GEN8_PTES_PER_PAGE : Nat := 512

def GEN8_LEGACY_PDPS : Nat := 4

def GEN8_PDPE_SHIFT : Nat := 30

def GEN8_PDE_SHIFT : Nat := 21

def GEN8_PTE_SHIFT : Nat := 12

def GEN8_PDPE_MASK : Nat := 0x3

def GEN8_PDE_MASK : Nat := 0x1ff

def GEN8_PTE_MASK : Nat := 0x1ff

def Gen8PT : Type := Nat → Nat → Nat → Nat

/-- The while (num_entries) loop of gen8_ppgtt_clear_range: fill one table page
up to its clamp, then pte = 0, pde increments, wrapping pdpe at 512 pdes. -/
def gen8ClearWhile (pt : Gen8PT) (scratch_pte : Nat) : Nat → Nat → Nat → Nat → Nat → Gen8PT
  | _, _, _, _, 0 => pt
  | pdpe, pde, pte, num, fuel+1 =>
    if num = 0 then pt
    else
      let last_pte := if pte + num > GEN8_PTES_PER_PAGE then GEN8_PTES_PER_PAGE else pte + num
      let pt2 : Gen8PT := fun P D =>
        if P = pdpe ∧ D = pde then ptWriteSeq (pt pdpe pde) pte (last_pte - pte) scratch_pte
        else pt P D
      if pde + 1 = GEN8_PDES_PER_PAGE then
        gen8ClearWhile pt2 scratch_pte (pdpe + 1) 0 0 (num - (last_pte - pte)) fuel
      else
        gen8ClearWhile pt2 scratch_pte pdpe (pde + 1) 0 (num - (last_pte - pte)) fuel

/-- gen8_ppgtt_clear_range: pdpe/pde/pte extracted by shift-and-mask from start;
the scratch entry is gen8_pte_encode(scratch.addr, I915_CACHE_LLC, use_scratch). -/
def gen8_ppgtt_clear_range (scratchAddr : Nat) (pt : Gen8PT)
    (start length : Nat) (use_scratch : Bool) : Gen8PT :=
  let pdpe := (start >>> GEN8_PDPE_SHIFT) &&& GEN8_PDPE_MASK
  let pde := (start >>> GEN8_PDE_SHIFT) &&& GEN8_PDE_MASK
  let pte := (start >>> GEN8_PTE_SHIFT) &&& GEN8_PTE_MASK
  let num_entries := length >>> PAGE_SHIFT
  let scratch_pte := gen8_pte_encode scratchAddr I915_CACHE_LLC use_scratch
  gen8ClearWhile pt scratch_pte pdpe pde pte num_entries num_entries

/-- The for_each_sg_page loop of gen8_ppgtt_insert_entries: per iteration the
WARN_ON(pdpe >= GEN8_LEGACY_PDPS) break is checked, then one entry is written
with gen8_pte_encode(addr, cache_level, true). -/
def gen8InsertLoop (cache_level : Nat) : List Nat → Gen8PT → Nat → Nat → Nat → Gen8PT
  | [], pt, _, _, _ => pt
  | addr :: rest, pt, pdpe, pde, pte =>
    if pdpe ≥ GEN8_LEGACY_PDPS then pt
    else
      let entry := gen8_pte_encode addr cache_level true
      let pt2 : Gen8PT := fun P D =>
        if P = pdpe ∧ D = pde then (fun j => if j = pte then entry else pt pdpe pde j)
        else pt P D
      if pte + 1 = GEN8_PTES_PER_PAGE then
        if pde + 1 = GEN8_PDES_PER_PAGE then
          gen8InsertLoop cache_level rest pt2 (pdpe + 1) 0 0
        else
          gen8InsertLoop cache_level rest pt2 pdpe (pde + 1) 0
      else
        gen8InsertLoop cache_level rest pt2 pdpe pde (pte + 1)

def gen8_ppgtt_insert_entries (pt : Gen8PT) (pages : List Nat)
    (start cache_level : Nat) : Gen8PT :=
  let pdpe := (start >>> GEN8_PDPE_SHIFT) &&& GEN8_PDPE_MASK
  let pde := (start >>> GEN8_PDE_SHIFT) &&& GEN8_PDE_MASK
  let pte := (start >>> GEN8_PTE_SHIFT) &&& GEN8_PTE_MASK
  gen8InsertLoop cache_level pages pt pdpe pde pte

theorem gen8ClearWhile_get (fuel : Nat) :
    ∀ (pt : Gen8PT) (v pdpe pde pte num P D e : Nat), num ≤ fuel →
      pde < GEN8_PDES_PER_PAGE → pte < GEN8_PTES_PER_PAGE →
      D < GEN8_PDES_PER_PAGE → e < GEN8_PTES_PER_PAGE →
      gen8ClearWhile pt v pdpe pde pte num fuel P D e =
        if (pdpe * 512 + pde) * 512 + pte ≤ (P * 512 + D) * 512 + e ∧
            (P * 512 + D) * 512 + e < (pdpe * 512 + pde) * 512 + pte + num then v
        else pt P D e := by
  induction fuel with
  | zero =>
    intro pt v pdpe pde pte num P D e hnum hpde hpte hD he
    have : num = 0 := by omega
    subst this
    simp only [gen8ClearWhile]
    rw [if_neg]
    omega
  | succ fuel ih =>
    intro pt v pdpe pde pte num P D e hnum hpde hpte hD he
    by_cases h0 : num = 0
    · subst h0
      simp only [gen8ClearWhile, if_pos]
      rw [if_neg]
      omega
    · rw [gen8ClearWhile, if_neg h0]
      simp only [GEN8_PDES_PER_PAGE, GEN8_PTES_PER_PAGE] at *
      have htp : (P = pdpe ∧ D = pde) ∨
          (P * 512 + D) * 512 + e < (pdpe * 512 + pde) * 512 ∨
          (pdpe * 512 + pde + 1) * 512 ≤ (P * 512 + D) * 512 + e := by
        rcases Nat.lt_trichotomy (P * 512 + D) (pdpe * 512 + pde) with h | h | h
        · right
          left
          have := Nat.mul_le_mul_right 512 (show P * 512 + D + 1 ≤ pdpe * 512 + pde by omega)
          omega
        · left
          omega
        · right
          right
          have := Nat.mul_le_mul_right 512 (show pdpe * 512 + pde + 1 ≤ P * 512 + D by omega)
          omega
      by_cases hcl : pte + num > 512
      · simp only [if_pos hcl]
        by_cases hw : pde + 1 = 512
        · rw [if_pos hw]
          rw [ih _ _ _ _ _ _ _ _ _ (by omega) (by omega) (by omega) (by omega) (by omega)]
          rcases htp with ⟨hP, hD2⟩ | ht | ht
          · rw [if_pos (And.intro hP hD2), ptWriteSeq_get, hP, hD2]
            split_ifs <;> first | rfl | omega
          · have hne : ¬(P = pdpe ∧ D = pde) := by omega
            rw [if_neg hne]
            split_ifs <;> first | rfl | omega
          · have hne : ¬(P = pdpe ∧ D = pde) := by omega
            rw [if_neg hne]
            split_ifs <;> first | rfl | omega
        · rw [if_neg hw]
          rw [ih _ _ _ _ _ _ _ _ _ (by omega) (by omega) (by omega) (by omega) (by omega)]
          rcases htp with ⟨hP, hD2⟩ | ht | ht
          · rw [if_pos (And.intro hP hD2), ptWriteSeq_get, hP, hD2]
            split_ifs <;> first | rfl | omega
          · have hne : ¬(P = pdpe ∧ D = pde) := by omega
            rw [if_neg hne]
            split_ifs <;> first | rfl | omega
          · have hne : ¬(P = pdpe ∧ D = pde) := by omega
            rw [if_neg hne]
            split_ifs <;> first | rfl | omega
      · simp only [if_neg hcl]
        by_cases hw : pde + 1 = 512
        · rw [if_pos hw]
          rw [ih _ _ _ _ _ _ _ _ _ (by omega) (by omega) (by omega) (by omega) (by omega)]
          rcases htp with ⟨hP, hD2⟩ | ht | ht
          · rw [if_pos (And.intro hP hD2), ptWriteSeq_get, hP, hD2]
            split_ifs <;> first | rfl | omega
          · have hne : ¬(P = pdpe ∧ D = pde) := by omega
            rw [if_neg hne]
            split_ifs <;> first | rfl | omega
          · have hne : ¬(P = pdpe ∧ D = pde) := by omega
            rw [if_neg hne]
            split_ifs <;> first | rfl | omega
        · rw [if_neg hw]
          rw [ih _ _ _ _ _ _ _ _ _ (by omega) (by omega) (by omega) (by omega) (by omega)]
          rcases htp with ⟨hP, hD2⟩ | ht | ht
          · rw [if_pos (And.intro hP hD2), ptWriteSeq_get, hP, hD2]
            split_ifs <;> first | rfl | omega
          · have hne : ¬(P = pdpe ∧ D = pde) := by omega
            rw [if_neg hne]
            split_ifs <;> first | rfl | omega
          · have hne : ¬(P = pdpe ∧ D = pde) := by omega
            rw [if_neg hne]
            split_ifs <;> first | rfl | omega

theorem gen8InsertLoop_get (lvl : Nat) (pages : List Nat) :
    ∀ (pt : Gen8PT) (pdpe pde pte P D e : Nat),
      pde < GEN8_PDES_PER_PAGE → pte < GEN8_PTES_PER_PAGE →
      D < GEN8_PDES_PER_PAGE → e < GEN8_PTES_PER_PAGE →
      (pdpe * 512 + pde) * 512 + pte + pages.length ≤ 4 * 512 * 512 →
      gen8InsertLoop lvl pages pt pdpe pde pte P D e =
        if (pdpe * 512 + pde) * 512 + pte ≤ (P * 512 + D) * 512 + e ∧
            (P * 512 + D) * 512 + e < (pdpe * 512 + pde) * 512 + pte + pages.length then
          gen8_pte_encode
            (pages.getD ((P * 512 + D) * 512 + e - ((pdpe * 512 + pde) * 512 + pte)) 0) lvl true
        else pt P D e := by
  induction pages with
  | nil =>
    intro pt pdpe pde pte P D e hpde hpte hD he hb
    simp only [gen8InsertLoop, List.length_nil]
    rw [if_neg]
    omega
  | cons addr rest ih =>
    intro pt pdpe pde pte P D e hpde hpte hD he hb
    simp only [GEN8_PDES_PER_PAGE, GEN8_PTES_PER_PAGE] at *
    have hsame : ∀ pt2 : Gen8PT,
        (∀ Q R d, pt2 Q R d =
          if Q = pdpe ∧ R = pde ∧ d = pte then gen8_pte_encode addr lvl true else pt Q R d) →
        (if (pdpe * 512 + pde) * 512 + pte + 1 ≤ (P * 512 + D) * 512 + e ∧
            (P * 512 + D) * 512 + e < (pdpe * 512 + pde) * 512 + pte + 1 + rest.length then
          gen8_pte_encode
            (rest.getD ((P * 512 + D) * 512 + e - ((pdpe * 512 + pde) * 512 + pte + 1)) 0)
            lvl true
         else pt2 P D e) =
        if (pdpe * 512 + pde) * 512 + pte ≤ (P * 512 + D) * 512 + e ∧
            (P * 512 + D) * 512 + e < (pdpe * 512 + pde) * 512 + pte + (addr :: rest).length then
          gen8_pte_encode
            ((addr :: rest).getD ((P * 512 + D) * 512 + e - ((pdpe * 512 + pde) * 512 + pte)) 0)
            lvl true
        else pt P D e := by
      intro pt2 hpt2
      rw [hpt2]
      have htp : (P = pdpe ∧ D = pde ∧ e = pte) ∨
          (P * 512 + D) * 512 + e < (pdpe * 512 + pde) * 512 + pte ∨
          (pdpe * 512 + pde) * 512 + pte + 1 ≤ (P * 512 + D) * 512 + e := by
        rcases Nat.lt_trichotomy (P * 512 + D) (pdpe * 512 + pde) with h | h | h
        · right
          left
          have := Nat.mul_le_mul_right 512 (show P * 512 + D + 1 ≤ pdpe * 512 + pde by omega)
          omega
        · have hPD : P = pdpe ∧ D = pde := by omega
          rcases Nat.lt_trichotomy e pte with h2 | h2 | h2
          · right
            left
            omega
          · left
            exact ⟨hPD.1, hPD.2, h2⟩
          · right
            right
            omega
        · right
          right
          have := Nat.mul_le_mul_right 512 (show pdpe * 512 + pde + 1 ≤ P * 512 + D by omega)
          omega
      rcases htp with ⟨hP, hD2, hE⟩ | ht | ht
      · rw [if_neg (by omega), if_pos ⟨hP, hD2, hE⟩,
            if_pos (by simp only [List.length_cons]; omega)]
        rw [hP, hD2, hE]
        simp
      · rw [if_neg (by omega),
            if_neg (show ¬(P = pdpe ∧ D = pde ∧ e = pte) by
              intro hc
              rcases hc with ⟨h1, h2, h3⟩
              omega),
            if_neg (by simp only [List.length_cons]; omega)]
      · by_cases hcov : (P * 512 + D) * 512 + e < (pdpe * 512 + pde) * 512 + pte + 1 + rest.length
        · rw [if_pos ⟨ht, hcov⟩, if_pos (by simp only [List.length_cons]; omega)]
          have harg : (P * 512 + D) * 512 + e - ((pdpe * 512 + pde) * 512 + pte) =
              ((P * 512 + D) * 512 + e - ((pdpe * 512 + pde) * 512 + pte + 1)) + 1 := by
            omega
          rw [harg, List.getD_cons_succ]
        · rw [if_neg (by omega),
              if_neg (show ¬(P = pdpe ∧ D = pde ∧ e = pte) by
                intro hc
                rcases hc with ⟨h1, h2, h3⟩
                omega),
              if_neg (by simp only [List.length_cons]; omega)]
    simp only [gen8InsertLoop]
    rw [if_neg (show ¬(pdpe ≥ GEN8_LEGACY_PDPS) by
          simp only [GEN8_LEGACY_PDPS]
          simp only [List.length_cons] at hb
          omega)]
    by_cases hadv : pte + 1 = 512
    · by_cases hw : pde + 1 = 512
      · rw [if_pos (by simp only [GEN8_PTES_PER_PAGE]; exact hadv),
            if_pos (by simp only [GEN8_PDES_PER_PAGE]; exact hw)]
        rw [ih _ _ _ _ _ _ _ (by omega) (by omega) (by omega) (by omega)
              (by simp only [List.length_cons] at hb; omega)]
        have hbase : ((pdpe + 1) * 512 + 0) * 512 + 0 = (pdpe * 512 + pde) * 512 + pte + 1 := by
          omega
        rw [hbase]
        apply hsame
        intro Q R d
        show (if Q = pdpe ∧ R = pde then (fun j => if j = pte then gen8_pte_encode addr lvl true
              else pt pdpe pde j) else pt Q R) d = _
        by_cases hQR : Q = pdpe ∧ R = pde
        · rw [if_pos hQR]
          show (if d = pte then gen8_pte_encode addr lvl true else pt pdpe pde d) = _
          rcases hQR with ⟨hQ, hR⟩
          rw [hQ, hR]
          by_cases hd : d = pte
          · rw [if_pos hd, if_pos ⟨rfl, rfl, hd⟩]
          · rw [if_neg hd, if_neg (fun hc => hd hc.2.2)]
        · rw [if_neg hQR, if_neg (fun hc => hQR ⟨hc.1, hc.2.1⟩)]
      · rw [if_pos (by simp only [GEN8_PTES_PER_PAGE]; exact hadv),
            if_neg (by simp only [GEN8_PDES_PER_PAGE]; exact hw)]
        rw [ih _ _ _ _ _ _ _ (by omega) (by omega) (by omega) (by omega)
              (by simp only [List.length_cons] at hb; omega)]
        have hbase : (pdpe * 512 + (pde + 1)) * 512 + 0 = (pdpe * 512 + pde) * 512 + pte + 1 := by
          omega
        rw [hbase]
        apply hsame
        intro Q R d
        show (if Q = pdpe ∧ R = pde then (fun j => if j = pte then gen8_pte_encode addr lvl true
              else pt pdpe pde j) else pt Q R) d = _
        by_cases hQR : Q = pdpe ∧ R = pde
        · rw [if_pos hQR]
          show (if d = pte then gen8_pte_encode addr lvl true else pt pdpe pde d) = _
          rcases hQR with ⟨hQ, hR⟩
          rw [hQ, hR]
          by_cases hd : d = pte
          · rw [if_pos hd, if_pos ⟨rfl, rfl, hd⟩]
          · rw [if_neg hd, if_neg (fun hc => hd hc.2.2)]
        · rw [if_neg hQR, if_neg (fun hc => hQR ⟨hc.1, hc.2.1⟩)]
    · rw [if_neg (by simp only [GEN8_PTES_PER_PAGE]; exact hadv)]
      rw [ih _ _ _ _ _ _ _ (by omega) (by omega) (by omega) (by omega)
            (by simp only [List.length_cons] at hb; omega)]
      have hbase : (pdpe * 512 + pde) * 512 + (pte + 1) = (pdpe * 512 + pde) * 512 + pte + 1 := by
        omega
      rw [hbase]
      apply hsame
      intro Q R d
      show (if Q = pdpe ∧ R = pde then (fun j => if j = pte then gen8_pte_encode addr lvl true
            else pt pdpe pde j) else pt Q R) d = _
      by_cases hQR : Q = pdpe ∧ R = pde
      · rw [if_pos hQR]
        show (if d = pte then gen8_pte_encode addr lvl true else pt pdpe pde d) = _
        rcases hQR with ⟨hQ, hR⟩
        rw [hQ, hR]
        by_cases hd : d = pte
        · rw [if_pos hd, if_pos ⟨rfl, rfl, hd⟩]
        · rw [if_neg hd, if_neg (fun hc => hd hc.2.2)]
      · rw [if_neg hQR, if_neg (fun hc => hQR ⟨hc.1, hc.2.1⟩)]

theorem gen8_ppgtt_clear_range_get (scratchAddr : Nat) (pt : Gen8PT)
    (start length : Nat) (u : Bool) (P D e : Nat)
    (hs : start < 4294967296) (hD : D < GEN8_PDES_PER_PAGE) (he : e < GEN8_PTES_PER_PAGE) :
    gen8_ppgtt_clear_range scratchAddr pt start length u P D e =
      if start >>> 12 ≤ (P * 512 + D) * 512 + e ∧
          (P * 512 + D) * 512 + e < start >>> 12 + (length >>> 12) then
        gen8_pte_encode scratchAddr I915_CACHE_LLC u
      else pt P D e := by
  have h3 : ∀ n : Nat, n &&& 3 = n % 4 := fun n => Nat.and_pow_two_sub_one_eq_mod n 2
  have h511 : ∀ n : Nat, n &&& 511 = n % 512 := fun n => Nat.and_pow_two_sub_one_eq_mod n 9
  simp only [gen8_ppgtt_clear_range, GEN8_PDPE_SHIFT, GEN8_PDE_SHIFT, GEN8_PTE_SHIFT,
    GEN8_PDPE_MASK, GEN8_PDE_MASK, GEN8_PTE_MASK, PAGE_SHIFT]
  rw [show ((start >>> 30) &&& 3) = (start >>> 30) % 4 from h3 _,
      show ((start >>> 21) &&& 511) = (start >>> 21) % 512 from h511 _,
      show ((start >>> 12) &&& 511) = (start >>> 12) % 512 from h511 _]
  rw [gen8ClearWhile_get _ _ _ _ _ _ _ _ _ _ (Nat.le_refl _)
        (by simp only [GEN8_PDES_PER_PAGE]; omega)
        (by simp only [GEN8_PTES_PER_PAGE]; omega) hD he]
  have hsh30 : start >>> 30 = start >>> 12 / 262144 := by
    simp only [Nat.shiftRight_eq_div_pow]
    rw [Nat.div_div_eq_div_mul]
  have hsh21 : start >>> 21 = start >>> 12 / 512 := by
    simp only [Nat.shiftRight_eq_div_pow]
    rw [Nat.div_div_eq_div_mul]
  have hx : start >>> 12 < 1048576 := by
    simp only [Nat.shiftRight_eq_div_pow]
    norm_num
    omega
  rw [hsh30, hsh21]
  have hdm : (start >>> 12 / 262144 % 4 * 512 + start >>> 12 / 512 % 512) * 512 +
      start >>> 12 % 512 = start >>> 12 := by
    omega
  rw [hdm]

theorem gen8_ppgtt_insert_entries_get (pt : Gen8PT) (pages : List Nat)
    (start lvl : Nat) (P D e : Nat)
    (hs : start < 4294967296) (hD : D < GEN8_PDES_PER_PAGE) (he : e < GEN8_PTES_PER_PAGE)
    (hb : start >>> 12 + pages.length ≤ 4 * 512 * 512) :
    gen8_ppgtt_insert_entries pt pages start lvl P D e =
      if start >>> 12 ≤ (P * 512 + D) * 512 + e ∧
          (P * 512 + D) * 512 + e < start >>> 12 + pages.length then
        gen8_pte_encode (pages.getD ((P * 512 + D) * 512 + e - start >>> 12) 0) lvl true
      else pt P D e := by
  have h3 : ∀ n : Nat, n &&& 3 = n % 4 := fun n => Nat.and_pow_two_sub_one_eq_mod n 2
  have h511 : ∀ n : Nat, n &&& 511 = n % 512 := fun n => Nat.and_pow_two_sub_one_eq_mod n 9
  have hsh30 : start >>> 30 = start >>> 12 / 262144 := by
    simp only [Nat.shiftRight_eq_div_pow]
    rw [Nat.div_div_eq_div_mul]
  have hsh21 : start >>> 21 = start >>> 12 / 512 := by
    simp only [Nat.shiftRight_eq_div_pow]
    rw [Nat.div_div_eq_div_mul]
  have hx : start >>> 12 < 1048576 := by
    simp only [Nat.shiftRight_eq_div_pow]
    norm_num
    omega
  simp only [gen8_ppgtt_insert_entries, GEN8_PDPE_SHIFT, GEN8_PDE_SHIFT, GEN8_PTE_SHIFT,
    GEN8_PDPE_MASK, GEN8_PDE_MASK, GEN8_PTE_MASK]
  rw [show ((start >>> 30) &&& 3) = (start >>> 30) % 4 from h3 _,
      show ((start >>> 21) &&& 511) = (start >>> 21) % 512 from h511 _,
      show ((start >>> 12) &&& 511) = (start >>> 12) % 512 from h511 _]
  have hdm : (start >>> 12 / 262144 % 4 * 512 + start >>> 12 / 512 % 512) * 512 +
      start >>> 12 % 512 = start >>> 12 := by
    rw [hsh30] at *
    omega
  rw [gen8InsertLoop_get _ _ _ _ _ _ _ _ _
        (by simp only [GEN8_PDES_PER_PAGE]; omega)
        (by simp only [GEN8_PTES_PER_PAGE]; omega) hD he
        (by rw [hsh30, hsh21, hdm]; omega)]
  rw [hsh30, hsh21, hdm]

/-! ## Allocator completion (gen6_ppgtt_init / gen8_ppgtt_init, lines 1045-1092
and 553-623). The happy path of each init: after all allocation and DMA mapping
succeeded, the code sets base.total and issues clear_range(0, total, true) as
the final table-writing step before returning 0.  Only the table contents and
the computed total are modelled here; the allocation bookkeeping is C8's model. -/

def gen6_ppgtt_init_tables (vm : Gen6VM) (pt : Gen6PT) : Gen6PT × Nat :=
  let num_pd_entries := GEN6_PPGTT_PD_ENTRIES
  let total := num_pd_entries * I915_PPGTT_PT_ENTRIES * PAGE_SIZE
  (gen6_ppgtt_clear_range vm pt 0 total true, total)

/-- gen8_ppgtt_init: max_pdp = DIV_ROUND_UP(size, 1 << 30); num_pd_entries =
max_pdp * GEN8_PDES_PER_PAGE; total = num_pd_entries * GEN8_PTES_PER_PAGE *
PAGE_SIZE; final step clear_range(0, total, true). -/
def gen8_ppgtt_init_tables (scratchAddr : Nat) (pt : Gen8PT) (size : Nat) : Gen8PT × Nat :=
  let max_pdp := (size + (1 <<< 30) - 1) / (1 <<< 30)
  let num_pd_entries := max_pdp * GEN8_PDES_PER_PAGE
  let total := num_pd_entries * GEN8_PTES_PER_PAGE * PAGE_SIZE
  (gen8_ppgtt_clear_range scratchAddr pt 0 total true, total)

/-- C2: both page-table allocator variants end successful initialization with a
clear_range over the whole [0, total) span, so at completion every entry backing
a virtual page of the space holds the scratch-page encoding, written as a valid
(use_scratch = true) entry pointing at the shared scratch page. -/
theorem ppgtt_init_fills_every_entry_with_scratch :
    (∀ (vm : Gen6VM) (pt : Gen6PT) (t e : Nat),
      e < I915_PPGTT_PT_ENTRIES →
      t * 1024 + e < (gen6_ppgtt_init_tables vm pt).2 >>> 12 →
      (gen6_ppgtt_init_tables vm pt).1 t e =
        vm.pte_encode vm.scratchAddr I915_CACHE_LLC true 0) ∧
    (∀ (sa : Nat) (pt : Gen8PT) (size P D e : Nat),
      D < GEN8_PDES_PER_PAGE → e < GEN8_PTES_PER_PAGE →
      size ≤ 4 <<< 30 →
      (P * 512 + D) * 512 + e < (gen8_ppgtt_init_tables sa pt size).2 >>> 12 →
      (gen8_ppgtt_init_tables sa pt size).1 P D e =
        gen8_pte_encode sa I915_CACHE_LLC true) ∧
    (∀ sa : Nat, (gen8_pte_encode sa I915_CACHE_LLC true).testBit 0 = true) := by
  refine ⟨?_, ?_, ?_⟩
  · intro vm pt t e he hp
    simp only [gen6_ppgtt_init_tables] at hp ⊢
    rw [gen6_ppgtt_clear_range_get vm pt 0 _ true t e he]
    rw [if_pos]
    refine ⟨by omega, ?_⟩
    simpa using hp
  · intro sa pt size P D e hD he hsz hp
    simp only [gen8_ppgtt_init_tables] at hp ⊢
    rw [gen8_ppgtt_clear_range_get sa pt 0 _ true P D e (by norm_num) hD he]
    rw [if_pos]
    refine ⟨by omega, ?_⟩
    simpa using hp
  · intro sa
    simp only [gen8_pte_encode, I915_CACHE_LLC, I915_CACHE_NONE, I915_CACHE_WT,
      PAGE_PRESENT, PAGE_RW, PPAT_CACHED_INDEX]
    norm_num [Nat.testBit_or]

theorem ppgtt_init_fills_every_entry_with_scratch_witness :
    (0 : Nat) < I915_PPGTT_PT_ENTRIES ∧
    (gen6_ppgtt_init_tables ⟨fun a l v f => a + l + f, 7⟩ (fun _ _ => 3)).1 0 0 =
      (7 : Nat) + I915_CACHE_LLC + 0 ∧
    (gen8_ppgtt_init_tables 7 (fun _ _ _ => 3) (1 <<< 30)).1 0 0 0 =
      gen8_pte_encode 7 I915_CACHE_LLC true := by
  refine ⟨by decide, ?_, ?_⟩
  · exact ppgtt_init_fills_every_entry_with_scratch.1 ⟨fun a l v f => a + l + f, 7⟩
      (fun _ _ => 3) 0 0 (by decide) (by decide)
  · exact ppgtt_init_fills_every_entry_with_scratch.2.1 7 (fun _ _ _ => 3) (1 <<< 30)
      0 0 0 (by decide) (by decide) (by decide) (by decide)

theorem gen6_round_trip_char (vm : Gen6VM) (pt : Gen6PT) (pages : List Nat)
    (start lvl fl t e : Nat) (he : e < I915_PPGTT_PT_ENTRIES) :
    gen6_ppgtt_clear_range vm (gen6_ppgtt_insert_entries vm pt pages start lvl fl)
        start (pages.length * PAGE_SIZE) true t e =
      if start >>> 12 ≤ t * 1024 + e ∧ t * 1024 + e < start >>> 12 + pages.length then
        vm.pte_encode vm.scratchAddr I915_CACHE_LLC true 0
      else pt t e := by
  have hnum : (pages.length * PAGE_SIZE) >>> 12 = pages.length := by
    simp only [PAGE_SIZE, Nat.shiftRight_eq_div_pow]
    omega
  rw [gen6_ppgtt_clear_range_get _ _ _ _ _ _ _ he, hnum]
  by_cases hcov : start >>> 12 ≤ t * 1024 + e ∧ t * 1024 + e < start >>> 12 + pages.length
  · rw [if_pos hcov, if_pos hcov]
  · rw [if_neg hcov, if_neg hcov, gen6_ppgtt_insert_entries_get _ _ _ _ _ _ _ _ he,
        if_neg hcov]

theorem gen8_round_trip_char (sa : Nat) (pt : Gen8PT) (pages : List Nat)
    (start lvl : Nat) (P D e : Nat)
    (hs : start < 4294967296) (hD : D < GEN8_PDES_PER_PAGE) (he : e < GEN8_PTES_PER_PAGE)
    (hb : start >>> 12 + pages.length ≤ 4 * 512 * 512) :
    gen8_ppgtt_clear_range sa (gen8_ppgtt_insert_entries pt pages start lvl)
        start (pages.length * PAGE_SIZE) true P D e =
      if start >>> 12 ≤ (P * 512 + D) * 512 + e ∧
          (P * 512 + D) * 512 + e < start >>> 12 + pages.length then
        gen8_pte_encode sa I915_CACHE_LLC true
      else pt P D e := by
  have hnum : (pages.length * PAGE_SIZE) >>> 12 = pages.length := by
    simp only [PAGE_SIZE, Nat.shiftRight_eq_div_pow]
    omega
  rw [gen8_ppgtt_clear_range_get _ _ _ _ _ _ _ _ hs hD he, hnum]
  by_cases hcov : start >>> 12 ≤ (P * 512 + D) * 512 + e ∧
      (P * 512 + D) * 512 + e < start >>> 12 + pages.length
  · rw [if_pos hcov, if_pos hcov]
  · rw [if_neg hcov, if_neg hcov, gen8_ppgtt_insert_entries_get _ _ _ _ _ _ _ hs hD he hb,
        if_neg hcov]

/-- C3: on both PPGTT variants, insert_entries for a page list followed by
clear_range(use_scratch = true) over the same virtual range leaves every covered
entry equal to the scratch-page encoding and every other entry untouched; in
particular, when the covered entries held the scratch encoding before the
insert (as after initialization), the raw entries read back are identical to
the state before the insert. -/
theorem insert_then_clear_restores_scratch :
    (∀ (vm : Gen6VM) (pt : Gen6PT) (pages : List Nat) (start lvl fl t e : Nat),
      e < I915_PPGTT_PT_ENTRIES →
      gen6_ppgtt_clear_range vm (gen6_ppgtt_insert_entries vm pt pages start lvl fl)
          start (pages.length * PAGE_SIZE) true t e =
        if start >>> 12 ≤ t * 1024 + e ∧ t * 1024 + e < start >>> 12 + pages.length then
          vm.pte_encode vm.scratchAddr I915_CACHE_LLC true 0
        else pt t e) ∧
    (∀ (vm : Gen6VM) (pt : Gen6PT) (pages : List Nat) (start lvl fl : Nat),
      (∀ t e, e < I915_PPGTT_PT_ENTRIES →
        start >>> 12 ≤ t * 1024 + e → t * 1024 + e < start >>> 12 + pages.length →
        pt t e = vm.pte_encode vm.scratchAddr I915_CACHE_LLC true 0) →
      ∀ t e, e < I915_PPGTT_PT_ENTRIES →
        gen6_ppgtt_clear_range vm (gen6_ppgtt_insert_entries vm pt pages start lvl fl)
          start (pages.length * PAGE_SIZE) true t e = pt t e) ∧
    (∀ (sa : Nat) (pt : Gen8PT) (pages : List Nat) (start lvl P D e : Nat),
      start < 4294967296 → D < GEN8_PDES_PER_PAGE → e < GEN8_PTES_PER_PAGE →
      start >>> 12 + pages.length ≤ 4 * 512 * 512 →
      gen8_ppgtt_clear_range sa (gen8_ppgtt_insert_entries pt pages start lvl)
          start (pages.length * PAGE_SIZE) true P D e =
        if start >>> 12 ≤ (P * 512 + D) * 512 + e ∧
            (P * 512 + D) * 512 + e < start >>> 12 + pages.length then
          gen8_pte_encode sa I915_CACHE_LLC true
        else pt P D e) ∧
    (∀ (sa : Nat) (pt : Gen8PT) (pages : List Nat) (start lvl : Nat),
      start < 4294967296 → start >>> 12 + pages.length ≤ 4 * 512 * 512 →
      (∀ P D e, D < GEN8_PDES_PER_PAGE → e < GEN8_PTES_PER_PAGE →
        start >>> 12 ≤ (P * 512 + D) * 512 + e →
        (P * 512 + D) * 512 + e < start >>> 12 + pages.length →
        pt P D e = gen8_pte_encode sa I915_CACHE_LLC true) →
      ∀ P D e, D < GEN8_PDES_PER_PAGE → e < GEN8_PTES_PER_PAGE →
        gen8_ppgtt_clear_range sa (gen8_ppgtt_insert_entries pt pages start lvl)
          start (pages.length * PAGE_SIZE) true P D e = pt P D e) := by
  refine ⟨gen6_round_trip_char, ?_, ?_, ?_⟩
  · intro vm pt pages start lvl fl hpre t e he
    rw [gen6_round_trip_char vm pt pages start lvl fl t e he]
    split_ifs with h
    · exact (hpre t e he h.1 h.2).symm
    · rfl
  · intro sa pt pages start lvl P D e hs hD he hb
    exact gen8_round_trip_char sa pt pages start lvl P D e hs hD he hb
  · intro sa pt pages start lvl hs hb hpre P D e hD he
    rw [gen8_round_trip_char sa pt pages start lvl P D e hs hD he hb]
    split_ifs with h
    · exact (hpre P D e hD he h.1 h.2).symm
    · rfl

theorem insert_then_clear_restores_scratch_witness :
    gen6_ppgtt_clear_range ⟨fun a l _ f => a + l + f, 7⟩
        (gen6_ppgtt_insert_entries ⟨fun a l _ f => a + l + f, 7⟩ (fun _ _ => 8) [5] 0 0 0)
        0 ([5].length * PAGE_SIZE) true 0 0 = 8 ∧
    gen8_ppgtt_clear_range 7
        (gen8_ppgtt_insert_entries (fun _ _ _ => gen8_pte_encode 7 I915_CACHE_LLC true) [5] 0 0)
        0 ([5].length * PAGE_SIZE) true 0 0 0 =
      gen8_pte_encode 7 I915_CACHE_LLC true := by
  constructor
  · exact insert_then_clear_restores_scratch.2.1 ⟨fun a l _ f => a + l + f, 7⟩
      (fun _ _ => 8) [5] 0 0 0 (fun _ _ _ _ _ => rfl) 0 0 (by decide)
  · exact insert_then_clear_restores_scratch.2.2.2 7
      (fun _ _ _ => gen8_pte_encode 7 I915_CACHE_LLC true) [5] 0 0 (by decide) (by decide)
      (fun _ _ _ _ _ _ _ => rfl) 0 0 0 (by decide) (by decide)

theorem listGetDdrop (l : List Nat) (i j d : Nat) : (l.drop i).getD j d = l.getD (i + j) d := by
  simp [List.getD_eq_getElem?_getD, List.getElem?_drop]

theorem listGetDtake (l : List Nat) (i j d : Nat) (h : j < i) :
    (l.take i).getD j d = l.getD j d := by
  simp [List.getD_eq_getElem?_getD, List.getElem?_take, h]

/-- C4: clear_range and insert_entries split across page-table boundaries. A
call covering a page-aligned range equals the two calls obtained by splitting
the range (and, for inserts, the page list) at any page-aligned point, in
particular at a table-page boundary; and a call whose range fits inside one
table page edits only that one table page (one loop iteration, one kmap). -/
theorem clear_insert_split_at_boundary :
    (∀ (vm : Gen6VM) (pt : Gen6PT) (start len1 len2 : Nat) (u : Bool) (t e : Nat),
      start % PAGE_SIZE = 0 → len1 % PAGE_SIZE = 0 → e < I915_PPGTT_PT_ENTRIES →
      gen6_ppgtt_clear_range vm pt start (len1 + len2) u t e =
        gen6_ppgtt_clear_range vm (gen6_ppgtt_clear_range vm pt start len1 u)
          (start + len1) len2 u t e) ∧
    (∀ (vm : Gen6VM) (pt : Gen6PT) (pages : List Nat) (start lvl fl k t e : Nat),
      k ≤ pages.length → e < I915_PPGTT_PT_ENTRIES →
      gen6_ppgtt_insert_entries vm pt pages start lvl fl t e =
        gen6_ppgtt_insert_entries vm
          (gen6_ppgtt_insert_entries vm pt (pages.take k) start lvl fl)
          (pages.drop k) (start + k * PAGE_SIZE) lvl fl t e) ∧
    (∀ (sa : Nat) (pt : Gen8PT) (start len1 len2 : Nat) (u : Bool) (P D e : Nat),
      start % PAGE_SIZE = 0 → len1 % PAGE_SIZE = 0 → start + len1 < 4294967296 →
      D < GEN8_PDES_PER_PAGE → e < GEN8_PTES_PER_PAGE →
      gen8_ppgtt_clear_range sa pt start (len1 + len2) u P D e =
        gen8_ppgtt_clear_range sa (gen8_ppgtt_clear_range sa pt start len1 u)
          (start + len1) len2 u P D e) ∧
    (∀ (pt : Gen8PT) (pages : List Nat) (start lvl k : Nat) (P D e : Nat),
      k ≤ pages.length → start + k * PAGE_SIZE < 4294967296 →
      start >>> 12 + pages.length ≤ 4 * 512 * 512 →
      D < GEN8_PDES_PER_PAGE → e < GEN8_PTES_PER_PAGE →
      gen8_ppgtt_insert_entries pt pages start lvl P D e =
        gen8_ppgtt_insert_entries
          (gen8_ppgtt_insert_entries pt (pages.take k) start lvl)
          (pages.drop k) (start + k * PAGE_SIZE) lvl P D e) ∧
    (∀ (vm : Gen6VM) (pt : Gen6PT) (start length : Nat) (u : Bool) (t e : Nat),
      e < I915_PPGTT_PT_ENTRIES →
      (start >>> 12) % 1024 + (length >>> 12) ≤ 1024 →
      t ≠ start >>> 12 / 1024 →
      gen6_ppgtt_clear_range vm pt start length u t e = pt t e) ∧
    (∀ (sa : Nat) (pt : Gen8PT) (start length : Nat) (u : Bool) (P D e : Nat),
      start < 4294967296 → D < GEN8_PDES_PER_PAGE → e < GEN8_PTES_PER_PAGE →
      (start >>> 12) % 512 + (length >>> 12) ≤ 512 →
      P * 512 + D ≠ start >>> 12 / 512 →
      gen8_ppgtt_clear_range sa pt start length u P D e = pt P D e) := by
  refine ⟨?_, ?_, ?_, ?_, ?_, ?_⟩
  · intro vm pt start len1 len2 u t e ha1 ha2 he
    simp only [PAGE_SIZE] at ha1 ha2
    have e1 : (start + len1) >>> 12 = start >>> 12 + len1 >>> 12 := by
      simp only [Nat.shiftRight_eq_div_pow]
      omega
    have e2 : (len1 + len2) >>> 12 = len1 >>> 12 + len2 >>> 12 := by
      simp only [Nat.shiftRight_eq_div_pow]
      omega
    rw [gen6_ppgtt_clear_range_get _ _ _ _ _ _ _ he,
        gen6_ppgtt_clear_range_get _ _ _ _ _ _ _ he,
        gen6_ppgtt_clear_range_get _ _ _ _ _ _ _ he, e1, e2]
    split_ifs <;> first | rfl | omega
  · intro vm pt pages start lvl fl k t e hk he
    have e1 : (start + k * PAGE_SIZE) >>> 12 = start >>> 12 + k := by
      simp only [PAGE_SIZE, Nat.shiftRight_eq_div_pow]
      omega
    have etk : (pages.take k).length = k := by
      simp only [List.length_take]
      omega
    have edp : (pages.drop k).length = pages.length - k := by
      simp only [List.length_drop]
    rw [gen6_ppgtt_insert_entries_get _ _ _ _ _ _ _ _ he,
        gen6_ppgtt_insert_entries_get _ _ _ _ _ _ _ _ he,
        gen6_ppgtt_insert_entries_get _ _ _ _ _ _ _ _ he, e1, etk, edp]
    by_cases h1 : start >>> 12 + k ≤ t * 1024 + e ∧
        t * 1024 + e < start >>> 12 + k + (pages.length - k)
    · rw [if_pos h1, if_pos (by omega)]
      have harg : t * 1024 + e - (start >>> 12 + k) =
          k + (t * 1024 + e - (start >>> 12 + k)) - k := by
        omega
      rw [listGetDdrop]
      have : k + (t * 1024 + e - (start >>> 12 + k)) = t * 1024 + e - start >>> 12 := by
        omega
      rw [this]
    · rw [if_neg h1]
      by_cases h2 : start >>> 12 ≤ t * 1024 + e ∧ t * 1024 + e < start >>> 12 + k
      · rw [if_pos h2, if_pos (by omega), listGetDtake _ _ _ _ (by omega)]
      · rw [if_neg h2, if_neg (by omega)]
  · intro sa pt start len1 len2 u P D e ha1 ha2 hs hD he
    simp only [PAGE_SIZE] at ha1 ha2
    have e1 : (start + len1) >>> 12 = start >>> 12 + len1 >>> 12 := by
      simp only [Nat.shiftRight_eq_div_pow]
      omega
    have e2 : (len1 + len2) >>> 12 = len1 >>> 12 + len2 >>> 12 := by
      simp only [Nat.shiftRight_eq_div_pow]
      omega
    rw [gen8_ppgtt_clear_range_get sa pt start (len1 + len2) u P D e (by omega) hD he,
        gen8_ppgtt_clear_range_get sa (gen8_ppgtt_clear_range sa pt start len1 u)
          (start + len1) len2 u P D e hs hD he,
        gen8_ppgtt_clear_range_get sa pt start len1 u P D e (by omega) hD he, e1, e2]
    split_ifs <;> first | rfl | omega
  · intro pt pages start lvl k P D e hk hs2 hb hD he
    have e1 : (start + k * PAGE_SIZE) >>> 12 = start >>> 12 + k := by
      simp only [PAGE_SIZE, Nat.shiftRight_eq_div_pow]
      omega
    have etk : (pages.take k).length = k := by
      simp only [List.length_take]
      omega
    have edp : (pages.drop k).length = pages.length - k := by
      simp only [List.length_drop]
    rw [gen8_ppgtt_insert_entries_get pt pages start lvl P D e (by omega) hD he (by omega),
        gen8_ppgtt_insert_entries_get
          (gen8_ppgtt_insert_entries pt (pages.take k) start lvl) (pages.drop k)
          (start + k * PAGE_SIZE) lvl P D e hs2 hD he (by rw [edp, e1]; omega),
        gen8_ppgtt_insert_entries_get pt (pages.take k) start lvl P D e (by omega) hD he
          (by rw [etk]; omega), e1, etk, edp]
    by_cases h1 : start >>> 12 + k ≤ (P * 512 + D) * 512 + e ∧
        (P * 512 + D) * 512 + e < start >>> 12 + k + (pages.length - k)
    · rw [if_pos h1, if_pos (by omega), listGetDdrop]
      have : k + ((P * 512 + D) * 512 + e - (start >>> 12 + k)) =
          (P * 512 + D) * 512 + e - start >>> 12 := by
        omega
      rw [this]
    · rw [if_neg h1]
      by_cases h2 : start >>> 12 ≤ (P * 512 + D) * 512 + e ∧
          (P * 512 + D) * 512 + e < start >>> 12 + k
      · rw [if_pos h2, if_pos (by omega), listGetDtake _ _ _ _ (by omega)]
      · rw [if_neg h2, if_neg (by omega)]
  · intro vm pt start length u t e he hfit ht
    rw [gen6_ppgtt_clear_range_get _ _ _ _ _ _ _ he, if_neg]
    simp only [I915_PPGTT_PT_ENTRIES] at he
    omega
  · intro sa pt start length u P D e hs hD he hfit hPD
    rw [gen8_ppgtt_clear_range_get _ _ _ _ _ _ _ _ hs hD he, if_neg]
    simp only [GEN8_PDES_PER_PAGE, GEN8_PTES_PER_PAGE] at hD he
    omega

theorem clear_insert_split_at_boundary_witness :
    gen6_ppgtt_clear_range ⟨fun a l _ f => a + l + f, 7⟩ (fun _ _ => 3) 0 (4096 + 4096)
        true 0 0 =
      gen6_ppgtt_clear_range ⟨fun a l _ f => a + l + f, 7⟩
        (gen6_ppgtt_clear_range ⟨fun a l _ f => a + l + f, 7⟩ (fun _ _ => 3) 0 4096 true)
        (0 + 4096) 4096 true 0 0 ∧
    gen6_ppgtt_insert_entries ⟨fun a l _ f => a + l + f, 7⟩ (fun _ _ => 3) [5, 6] 0 0 0 0 0 =
      gen6_ppgtt_insert_entries ⟨fun a l _ f => a + l + f, 7⟩
        (gen6_ppgtt_insert_entries ⟨fun a l _ f => a + l + f, 7⟩ (fun _ _ => 3)
          ([5, 6].take 1) 0 0 0)
        ([5, 6].drop 1) (0 + 1 * PAGE_SIZE) 0 0 0 0 ∧
    gen8_ppgtt_clear_range 7 (fun _ _ _ => 3) 4096 4096 true 1 0 0 = 3 := by
  refine ⟨?_, ?_, ?_⟩
  · exact clear_insert_split_at_boundary.1 ⟨fun a l _ f => a + l + f, 7⟩ (fun _ _ => 3)
      0 4096 4096 true 0 0 (by decide) (by decide) (by decide)
  · exact clear_insert_split_at_boundary.2.1 ⟨fun a l _ f => a + l + f, 7⟩ (fun _ _ => 3)
      [5, 6] 0 0 0 1 0 0 (by decide) (by decide)
  · exact clear_insert_split_at_boundary.2.2.2.2.2 7 (fun _ _ _ => 3) 4096 4096 true 1 0 0
      (by decide) (by decide) (by decide) (by decide) (by decide)

/-! ## VMA unbind paths (ppgtt_unbind_vma line 1209, ggtt_unbind_vma line 1604,
gen6_ggtt_clear_range line 1500). ppgtt_unbind_vma dispatches through
vm→clear_range; both generations are instantiated below. The global-GTT path
is a flat entry array indexed from gsm, with the num_entries clamp. -/

/-- ppgtt_unbind_vma on a full gen6 PPGTT: vm→clear_range(vma.node.start,
vma.obj.base.size, true). -/
def ppgtt_unbind_vma_gen6 (vm : Gen6VM) (pt : Gen6PT) (vmaStart objSize : Nat) : Gen6PT :=
  gen6_ppgtt_clear_range vm pt vmaStart objSize true

/-- ppgtt_unbind_vma on a gen8 PPGTT. -/
def ppgtt_unbind_vma_gen8 (sa : Nat) (pt : Gen8PT) (vmaStart objSize : Nat) : Gen8PT :=
  gen8_ppgtt_clear_range sa pt vmaStart objSize true

/-- gen6_ggtt_clear_range: flat GTT array; num_entries clamped to the entries
remaining up to gtt_total_entries, then scratch entries written. -/
def gen6_ggtt_clear_range (vm : Gen6VM) (g : Nat → Nat) (gtt_total : Nat)
    (start length : Nat) (use_scratch : Bool) : Nat → Nat :=
  let first_entry := start >>> PAGE_SHIFT
  let num_entries := length >>> PAGE_SHIFT
  let max_entries := gtt_total - first_entry
  let num := if num_entries > max_entries then max_entries else num_entries
  let scratch_pte := vm.pte_encode vm.scratchAddr I915_CACHE_LLC use_scratch 0
  ptWriteSeq g first_entry num scratch_pte

/-- The object flags ggtt_unbind_vma reads and clears, plus the object size. -/
structure GgttObj where
  has_global_gtt_mapping : Bool
  has_aliasing_ppgtt_mapping : Bool
  size : Nat

/-- Device-level state the ggtt unbind path touches: the flat global GTT
entries and the aliasing PPGTT tables (when an aliasing PPGTT exists). -/
structure GgttDev where
  ggttEntries : Nat → Nat
  gtt_total_entries : Nat
  ggttVm : Gen6VM
  aliasingPT : Gen6PT
  aliasingVm : Gen6VM

/-- ggtt_unbind_vma: if has_global_gtt_mapping, clear the global range and drop
the flag; if has_aliasing_ppgtt_mapping, clear the aliasing-PPGTT range and
drop that flag. -/
def ggtt_unbind_vma (d : GgttDev) (obj : GgttObj) (vmaStart : Nat) : GgttDev × GgttObj :=
  let s1 : GgttDev × GgttObj :=
    if obj.has_global_gtt_mapping then
      ({ d with ggttEntries :=
          (gen6_ggtt_clear_range d.ggttVm d.ggttEntries d.gtt_total_entries vmaStart
            obj.size true) },
       { obj with has_global_gtt_mapping := false })
    else (d, obj)
  if s1.2.has_aliasing_ppgtt_mapping then
    ({ s1.1 with aliasingPT :=
        (gen6_ppgtt_clear_range s1.1.aliasingVm s1.1.aliasingPT vmaStart s1.2.size true) },
     { s1.2 with has_aliasing_ppgtt_mapping := false })
  else s1

/-- C6: unbinding twice produces the same address-space state as unbinding
once. On the PPGTT path the second clear_range rewrites entries already equal
to the scratch encoding; on the GGTT path the second call is skipped entirely
because both mapping flags were cleared by the first call. -/
theorem unbind_vma_idempotent :
    (∀ (vm : Gen6VM) (pt : Gen6PT) (vmaStart objSize t e : Nat),
      e < I915_PPGTT_PT_ENTRIES →
      ppgtt_unbind_vma_gen6 vm (ppgtt_unbind_vma_gen6 vm pt vmaStart objSize)
          vmaStart objSize t e =
        ppgtt_unbind_vma_gen6 vm pt vmaStart objSize t e) ∧
    (∀ (sa : Nat) (pt : Gen8PT) (vmaStart objSize P D e : Nat),
      vmaStart < 4294967296 → D < GEN8_PDES_PER_PAGE → e < GEN8_PTES_PER_PAGE →
      ppgtt_unbind_vma_gen8 sa (ppgtt_unbind_vma_gen8 sa pt vmaStart objSize)
          vmaStart objSize P D e =
        ppgtt_unbind_vma_gen8 sa pt vmaStart objSize P D e) ∧
    (∀ (d : GgttDev) (obj : GgttObj) (vmaStart : Nat),
      ggtt_unbind_vma (ggtt_unbind_vma d obj vmaStart).1
          (ggtt_unbind_vma d obj vmaStart).2 vmaStart =
        ggtt_unbind_vma d obj vmaStart) := by
  refine ⟨?_, ?_, ?_⟩
  · intro vm pt vmaStart objSize t e he
    simp only [ppgtt_unbind_vma_gen6]
    rw [gen6_ppgtt_clear_range_get _ _ _ _ _ _ _ he,
        gen6_ppgtt_clear_range_get _ _ _ _ _ _ _ he]
    split_ifs <;> rfl
  · intro sa pt vmaStart objSize P D e hs hD he
    simp only [ppgtt_unbind_vma_gen8]
    rw [gen8_ppgtt_clear_range_get sa (gen8_ppgtt_clear_range sa pt vmaStart objSize true)
          vmaStart objSize true P D e hs hD he,
        gen8_ppgtt_clear_range_get sa pt vmaStart objSize true P D e hs hD he]
    split_ifs <;> rfl
  · intro d obj vmaStart
    rcases obj with ⟨hg, ha, sz⟩
    cases hg <;> cases ha <;> rfl

theorem unbind_vma_idempotent_witness :
    ppgtt_unbind_vma_gen6 ⟨fun a l _ f => a + l + f, 7⟩
        (ppgtt_unbind_vma_gen6 ⟨fun a l _ f => a + l + f, 7⟩ (fun _ _ => 3) 0 4096)
        0 4096 0 0 =
      ppgtt_unbind_vma_gen6 ⟨fun a l _ f => a + l + f, 7⟩ (fun _ _ => 3) 0 4096 0 0 ∧
    ppgtt_unbind_vma_gen8 7 (ppgtt_unbind_vma_gen8 7 (fun _ _ _ => 3) 0 4096) 0 4096 0 0 0 =
      ppgtt_unbind_vma_gen8 7 (fun _ _ _ => 3) 0 4096 0 0 0 := by
  constructor
  · exact unbind_vma_idempotent.1 ⟨fun a l _ f => a + l + f, 7⟩ (fun _ _ => 3) 0 4096 0 0
      (by decide)
  · exact unbind_vma_idempotent.2.1 7 (fun _ _ _ => 3) 0 4096 0 0 0 (by decide) (by decide)
      (by decide)

theorem lorShuffle0 (v a : Nat) : v ||| a = (0 ||| a) ||| v := by
  rw [Nat.zero_or, Nat.or_comm]

theorem lorShuffle1 (v a p : Nat) : (v ||| a) ||| p = ((0 ||| a) ||| p) ||| v := by
  rw [Nat.zero_or, Nat.or_comm v a, Nat.or_assoc, Nat.or_comm v p, ← Nat.or_assoc]

theorem lorShuffle2 (v a p q : Nat) : ((v ||| a) ||| p) ||| q = (((0 ||| a) ||| p) ||| q) ||| v := by
  rw [lorShuffle1 v a p, Nat.or_assoc, Nat.or_comm v q, ← Nat.or_assoc]

theorem testBit0aligned (a : Nat) (h : a % 4096 = 0) : a.testBit 0 = false := by
  rw [Nat.testBit_to_div_mod]
  simp
  omega

theorem testBit1aligned (a : Nat) (h : a % 4096 = 0) : a.testBit 1 = false := by
  rw [Nat.testBit_to_div_mod]
  simp
  omega

theorem testBit0addrEnc (a : Nat) (h : a % 4096 = 0) :
    (GEN6_PTE_ADDR_ENCODE a).testBit 0 = false := by
  have h1 : Nat.testBit 4080 0 = false := by decide
  simp only [GEN6_PTE_ADDR_ENCODE, Nat.testBit_or, Nat.testBit_and,
    testBit0aligned a h, h1, Bool.and_false, Bool.or_false]

theorem testBit0addrEncHsw (a : Nat) (h : a % 4096 = 0) :
    (HSW_PTE_ADDR_ENCODE a).testBit 0 = false := by
  have h1 : Nat.testBit 2032 0 = false := by decide
  simp only [HSW_PTE_ADDR_ENCODE, Nat.testBit_or, Nat.testBit_and,
    testBit0aligned a h, h1, Bool.and_false, Bool.or_false]

/-- C10: each per-generation encoder writes the validity selection as an extra
or-ed bit on top of an address-and-cache pattern that does not depend on valid:
encode(addr, level, true) = encode(addr, level, false) ||| valid-bits, and for
a page-aligned address the valid=false entry has the present bit (gen8 also
the RW bit) clear, so it is non-present while carrying address and cache bits. -/
theorem pte_encode_valid_bit_only (addr level fl : Nat) (hal : addr % 4096 = 0) :
    (gen8_pte_encode addr level true =
      gen8_pte_encode addr level false ||| (PAGE_PRESENT ||| PAGE_RW)) ∧
    (gen8_pte_encode addr level false).testBit 0 = false ∧
    (gen8_pte_encode addr level false).testBit 1 = false ∧
    (snb_pte_encode addr level true fl =
      snb_pte_encode addr level false fl ||| GEN6_PTE_VALID) ∧
    (snb_pte_encode addr level false fl).testBit 0 = false ∧
    (byt_pte_encode addr level true fl =
      byt_pte_encode addr level false fl ||| GEN6_PTE_VALID) ∧
    (byt_pte_encode addr level false fl).testBit 0 = false ∧
    (hsw_pte_encode addr level true fl =
      hsw_pte_encode addr level false fl ||| GEN6_PTE_VALID) ∧
    (hsw_pte_encode addr level false fl).testBit 0 = false := by
  refine ⟨?_, ?_, ?_, ?_, ?_, ?_, ?_, ?_, ?_⟩
  · simp only [gen8_pte_encode, reduceIte]
    split_ifs <;> first | exact False.elim (by assumption) | exact lorShuffle1 _ _ _
  · simp only [gen8_pte_encode, reduceIte]
    split_ifs <;>
      first
      | exact False.elim (by assumption)
      | (simp [Nat.testBit_or, testBit0aligned addr hal, PPAT_UNCACHED_INDEX,
        PPAT_DISPLAY_ELLC_INDEX, PPAT_CACHED_INDEX] <;> first | omega | decide)
  · simp only [gen8_pte_encode, reduceIte]
    split_ifs <;>
      first
      | exact False.elim (by assumption)
      | (simp [Nat.testBit_or, testBit1aligned addr hal, PPAT_UNCACHED_INDEX,
        PPAT_DISPLAY_ELLC_INDEX, PPAT_CACHED_INDEX] <;> first | omega | decide)
  · simp only [snb_pte_encode, reduceIte]
    split_ifs <;>
      first
      | exact False.elim (by assumption)
      | exact lorShuffle1 _ _ _
      | exact lorShuffle0 _ _
  · simp only [snb_pte_encode, reduceIte]
    split_ifs <;>
      first
      | exact False.elim (by assumption)
      | (simp [Nat.testBit_or, testBit0addrEnc addr hal, GEN6_PTE_CACHE_LLC,
          GEN6_PTE_UNCACHED, GEN6_PTE_ADDR_ENCODE, Nat.testBit_and] <;> first | omega | decide)
  · simp only [byt_pte_encode, reduceIte]
    split_ifs <;>
      first
      | exact False.elim (by assumption)
      | exact lorShuffle2 _ _ _ _
      | exact lorShuffle1 _ _ _
      | exact lorShuffle0 _ _
  · simp only [byt_pte_encode, reduceIte]
    split_ifs <;>
      first
      | exact False.elim (by assumption)
      | (simp [Nat.testBit_or, testBit0addrEnc addr hal, BYT_PTE_WRITEABLE,
        BYT_PTE_SNOOPED_BY_CPU_CACHES, GEN6_PTE_ADDR_ENCODE, Nat.testBit_and] <;> first | omega | decide)
  · simp only [hsw_pte_encode, reduceIte]
    split_ifs <;>
      first
      | exact False.elim (by assumption)
      | exact lorShuffle1 _ _ _
      | exact lorShuffle0 _ _
  · simp only [hsw_pte_encode, reduceIte]
    split_ifs <;>
      first
      | exact False.elim (by assumption)
      | (simp [Nat.testBit_or, testBit0addrEncHsw addr hal, HSW_WB_LLC_AGE3,
        hswCacheabilityControl, HSW_PTE_ADDR_ENCODE, Nat.testBit_and] <;> first | omega | decide)

theorem pte_encode_valid_bit_only_witness :
    (4096 : Nat) % 4096 = 0 ∧
    gen8_pte_encode 4096 1 true = gen8_pte_encode 4096 1 false ||| (PAGE_PRESENT ||| PAGE_RW) ∧
    (snb_pte_encode 4096 1 false 0).testBit 0 = false := by
  refine ⟨by decide, ?_, ?_⟩
  · exact (pte_encode_valid_bit_only 4096 1 0 (by decide)).1
  · exact (pte_encode_valid_bit_only 4096 1 0 (by decide)).2.2.2.2.1

/-- C5 counterexample: with the out-of-enum cache_level value 4, neither
gen8_pte_encode nor snb_pte_encode produces the I915_CACHE_NONE (uncached)
bit pattern: gen8 falls into the cached default arm (0x83 versus 0x1b at
address 0), and snb leaves the cache-bit field empty (1 versus 3). -/
theorem pte_encode_malformed_not_uncached :
    gen8_pte_encode 0 4 true ≠ gen8_pte_encode 0 I915_CACHE_NONE true ∧
    snb_pte_encode 0 4 true 0 ≠ snb_pte_encode 0 I915_CACHE_NONE true 0 ∧
    ivb_pte_encode 0 4 true 0 ≠ ivb_pte_encode 0 I915_CACHE_NONE true 0 := by
  refine ⟨?_, ?_, ?_⟩ <;> decide

/-- C5 amended: a malformed (out-of-enum, here any value at least 4)
cache_level takes the switch default arm and never fails: gen8_pte_encode
yields the cached pattern, identical to the recognized I915_CACHE_LLC
encoding, with no warning; snb_pte_encode and ivb_pte_encode leave the
cache-bit field empty (valid/address bits only) and fire their WARN_ON(1). -/
theorem pte_encode_malformed_default_arm (addr level fl : Nat) (v : Bool)
    (hml : 4 ≤ level) :
    gen8_pte_encode addr level v = gen8_pte_encode addr I915_CACHE_LLC v ∧
    snb_pte_encode addr level v fl =
      ((if v then GEN6_PTE_VALID else 0) ||| GEN6_PTE_ADDR_ENCODE addr) ∧
    snb_pte_warn level = true ∧
    ivb_pte_encode addr level v fl =
      ((if v then GEN6_PTE_VALID else 0) ||| GEN6_PTE_ADDR_ENCODE addr) ∧
    ivb_pte_warn level = true := by
  refine ⟨?_, ?_, ?_, ?_, ?_⟩
  · simp only [gen8_pte_encode, I915_CACHE_NONE, I915_CACHE_WT, I915_CACHE_LLC, reduceIte]
    have h1 : ¬(level = 0) := by omega
    have h2 : ¬(level = 3) := by omega
    rw [if_neg h1, if_neg h2]
    norm_num
  · simp only [snb_pte_encode, I915_CACHE_NONE, I915_CACHE_LLC, I915_CACHE_L3_LLC]
    rw [if_neg (by omega), if_neg (by omega)]
  · simp only [snb_pte_warn, I915_CACHE_NONE, I915_CACHE_LLC, I915_CACHE_L3_LLC]
    simp only [decide_eq_true_eq]
    omega
  · simp only [ivb_pte_encode, I915_CACHE_NONE, I915_CACHE_LLC, I915_CACHE_L3_LLC]
    rw [if_neg (by omega), if_neg (by omega), if_neg (by omega)]
  · simp only [ivb_pte_warn, I915_CACHE_NONE, I915_CACHE_LLC, I915_CACHE_L3_LLC]
    simp only [decide_eq_true_eq]
    omega

theorem pte_encode_malformed_default_arm_witness :
    (4 : Nat) ≤ 4 ∧
    gen8_pte_encode 0 4 true = gen8_pte_encode 0 I915_CACHE_LLC true ∧
    snb_pte_warn 4 = true := by
  refine ⟨by decide, ?_, ?_⟩
  · exact (pte_encode_malformed_default_arm 0 4 0 true (by decide)).1
  · exact (pte_encode_malformed_default_arm 0 4 0 true (by decide)).2.2.1

/-! ## Gen6 allocator failure unwind (gen6_ppgtt_init lines 1045-1092,
gen6_ppgtt_setup_page_tables lines 1023-1043, gen6_ppgtt_unmap_pages lines
906-916, gen6_ppgtt_free lines 918-926, gen6_ppgtt_cleanup lines 928-937).
Resource bookkeeping model: the drm_mm node reservation made by
gen6_ppgtt_allocate_page_directories, the table pages and dma-address array
allocated by gen6_ppgtt_alloc, and the count of DMA-mapped table pages.
drm_mm_remove_node is called only from gen6_ppgtt_cleanup and from the
failure paths inside gen6_ppgtt_alloc, not from gen6_ppgtt_free. -/

structure Gen6Res where
  nodeReserved : Bool
  pagesAllocated : Bool
  dmaArrayAllocated : Bool
  mappedCount : Nat
deriving DecidableEq

/-- gen6_ppgtt_unmap_pages: pci_unmap_page for every table slot. -/
def gen6_ppgtt_unmap_pages (r : Gen6Res) : Gen6Res := { r with mappedCount := 0 }

/-- gen6_ppgtt_free: kfree(pt_dma_addr), free every table page, kfree(pt_pages).
It does not remove the drm_mm node. -/
def gen6_ppgtt_free_res (r : Gen6Res) : Gen6Res :=
  { r with dmaArrayAllocated := false, pagesAllocated := false }

/-- The mapping loop of gen6_ppgtt_setup_page_tables: pci_map_page each table
page; on pci_dma_mapping_error, gen6_ppgtt_unmap_pages and return -EIO (5). -/
def gen6SetupLoop (mapFail : Nat → Bool) : Nat → Nat → Gen6Res → Option Nat × Gen6Res
  | _, 0, r => (none, r)
  | i, n+1, r =>
    if mapFail i then (some 5, gen6_ppgtt_unmap_pages r)
    else gen6SetupLoop mapFail (i + 1) n { r with mappedCount := r.mappedCount + 1 }

def gen6_ppgtt_setup_page_tables (mapFail : Nat → Bool) (r : Gen6Res) : Option Nat × Gen6Res :=
  gen6SetupLoop mapFail 0 GEN6_PPGTT_PD_ENTRIES r

/-- Resource state after gen6_ppgtt_alloc succeeded: node reserved, all table
pages allocated, dma array allocated, nothing mapped yet. -/
def gen6AllocState : Gen6Res := ⟨true, true, true, 0⟩

/-- gen6_ppgtt_init resource path: after gen6_ppgtt_alloc succeeds, run
gen6_ppgtt_setup_page_tables; on its failure call gen6_ppgtt_free and return
the error (source lines 1065-1069). -/
def gen6_ppgtt_init_resources (mapFail : Nat → Bool) : Option Nat × Gen6Res :=
  let r := gen6AllocState
  match gen6_ppgtt_setup_page_tables mapFail r with
  | (some err, r2) => (some err, gen6_ppgtt_free_res r2)
  | (none, r2) => (none, r2)

/-- C8 (code bug evidence): when DMA-mapping the first table page fails after
the directory reservation and all page allocations succeeded, gen6_ppgtt_init
unmaps and frees pages and arrays and returns -EIO, but the drm_mm node
reservation in the global address space is never removed on this path: the
returned state still has nodeReserved = true, contradicting the claimed full
unwind of the directory reservation. -/
theorem gen6_init_map_failure_leaks_node_reservation :
    (gen6_ppgtt_init_resources (fun _ => true)).1 = some 5 ∧
    (gen6_ppgtt_init_resources (fun _ => true)).2.nodeReserved = true ∧
    (gen6_ppgtt_init_resources (fun _ => true)).2.pagesAllocated = false ∧
    (gen6_ppgtt_init_resources (fun _ => true)).2.dmaArrayAllocated = false ∧
    (gen6_ppgtt_init_resources (fun _ => true)).2.mappedCount = 0 := by
  refine ⟨rfl, rfl, rfl, rfl, rfl⟩

/-! ## Atomic display commit engine (drm_atomic_helper.c).

Object tables are indexed by Nat. The committed (live) state lives in
DisplayDev (connector->state, crtc->state, plane->state) together with the
driver-supplied helper hooks, which are external collaborators. A transaction
(struct drm_atomic_state) carries optional staged states per object; none
means the object is not part of the transaction.

Modelled from the spec (drm_atomic.c is not under src/): the accessors
drm_atomic_get_crtc_state / drm_atomic_get_connector_state return the staged
state, duplicating the committed state into the transaction when absent
(spec section 3: states are duplicated at transaction start);
drm_atomic_set_crtc_for_connector(conn_state, crtc) assigns the crtc field;
drm_atomic_add_affected_connectors pulls in every connector whose committed
state routes to the crtc; drm_atomic_connectors_for_crtc counts staged
connector states routing to the crtc (spec section 4.3).

Where the C helper dereferences state->crtc_states[idx] without a presence
check (update_connector_routing, mode_fixup) the dereference of an absent
state would fault; the model makes those writes no-ops on absent states, and
the theorems do not depend on that corner. Error codes are errno magnitudes:
22 = EINVAL, 16 = EBUSY. -/

structure ConnState where
  crtc : Option Nat
  best_encoder : Option Nat
deriving DecidableEq, Repr

structure CrtcState where
  mode : Nat
  adjusted_mode : Nat
  enable : Bool
  mode_changed : Bool
  planes_changed : Bool
deriving DecidableEq, Repr

structure PlaneState where
  crtc : Option Nat
  fb : Option Nat
deriving DecidableEq, Repr

structure DisplayDev where
  nconnectors : Nat
  ncrtcs : Nat
  nplanes : Nat
  connCur : Nat → ConnState
  crtcCur : Nat → CrtcState
  planeCur : Nat → PlaneState
  planeLegacyCrtc : Nat → Option Nat
  best_encoder : Nat → Option Nat
  encBridgeFixup : Nat → Option (Nat → Nat → Option Nat)
  encModeFixup : Nat → Nat → Nat → Option Nat
  crtcModeFixup : Nat → Nat → Nat → Option Nat
  planeAtomicCheck : Nat → PlaneState → Bool
  crtcAtomicCheck : Nat → CrtcState → Bool
  prepareFb : Nat → Nat → Option Nat

structure AtomicState where
  conn : Nat → Option ConnState
  crtc : Nat → Option CrtcState
  plane : Nat → Option PlaneState

def setConn (s : AtomicState) (i : Nat) (st : ConnState) : AtomicState :=
  { s with conn := fun j => if j = i then some st else s.conn j }

def setCrtc (s : AtomicState) (i : Nat) (cs : CrtcState) : AtomicState :=
  { s with crtc := fun j => if j = i then some cs else s.crtc j }

/-- Modelled from the spec: drm_atomic_get_crtc_state (add-if-absent duplicate
of the committed state). -/
def getCrtcState (dev : DisplayDev) (s : AtomicState) (i : Nat) : AtomicState × CrtcState :=
  match s.crtc i with
  | some cs => (s, cs)
  | none => (setCrtc s i (dev.crtcCur i), dev.crtcCur i)

/-- Modelled from the spec: drm_atomic_get_connector_state. -/
def getConnState (dev : DisplayDev) (s : AtomicState) (i : Nat) : AtomicState × ConnState :=
  match s.conn i with
  | some st => (s, st)
  | none => (setConn s i (dev.connCur i), dev.connCur i)

/-- Set mode_changed on the staged crtc state at the given index; the C code
writes through state->crtc_states[idx] directly (no-op here when absent). -/
def markCrtcModeChanged (s : AtomicState) (oc : Option Nat) : AtomicState :=
  match oc with
  | none => s
  | some c =>
    match s.crtc c with
    | none => s
    | some cs => setCrtc s c { cs with mode_changed := true }

/-- Ascending index loop: processes 0, 1, ..., n-1. -/
def foldIdx (f : AtomicState → Nat → AtomicState) (s : AtomicState) : Nat → AtomicState
  | 0 => s
  | n+1 => f (foldIdx f s n) n

/-- Ascending index loop with early error return. -/
def runSeq (f : AtomicState → Nat → Except Nat AtomicState) (s : AtomicState) :
    Nat → Except Nat AtomicState
  | 0 => .ok s
  | n+1 =>
    match runSeq f s n with
    | .error e2 => .error e2
    | .ok s2 => f s2 n

/-- get_current_crtc_for_encoder (lines 83-100): scan the connector list for
the first connector whose committed state holds the encoder and return that
committed state crtc (possibly none). -/
def get_current_crtc_for_encoder (dev : DisplayDev) (enc : Nat) : Option Nat :=
  match (List.range dev.nconnectors).find?
      (fun c => decide ((dev.connCur c).best_encoder = some enc)) with
  | some c => (dev.connCur c).crtc
  | none => none

/-- The connector scan of steal_encoder (lines 129-146): every connector whose
committed state holds the encoder gets its staged state (added if absent)
detached: crtc := none (drm_atomic_set_crtc_for_connector(conn_state, NULL))
and best_encoder := none. -/
def stealLoop (dev : DisplayDev) (enc : Nat) (s : AtomicState) : Nat → AtomicState :=
  foldIdx
    (fun s c =>
      if (dev.connCur c).best_encoder = some enc then
        let g := getConnState dev s c
        setConn g.1 c { g.2 with crtc := none, best_encoder := none }
      else s)
    s

/-- steal_encoder (lines 102-149): mark the stolen-from crtc mode_changed
(through drm_atomic_get_crtc_state), then detach every committed claimer. -/
def steal_encoder (dev : DisplayDev) (s : AtomicState) (enc : Nat) (encoder_crtc : Nat) :
    AtomicState :=
  let g := getCrtcState dev s encoder_crtc
  let s := setCrtc g.1 encoder_crtc { g.2 with mode_changed := true }
  stealLoop dev enc s dev.nconnectors

/-- The routing body of update_connector_routing (lines 188-245), after the
mode_changed marking for a changed crtc assignment; st is the staged connector
state read at entry (the marking does not modify connector states). Disable
when the staged crtc is unset; ask the best_encoder hook, -EINVAL when it
returns none; keep an unchanged encoder; otherwise steal the encoder from its
current committed owner if any, then assign it and flag the target crtc. -/
def update_connector_routing_core (dev : DisplayDev) (s : AtomicState) (i : Nat)
    (st : ConnState) : Except Nat AtomicState :=
  if st.crtc = none then .ok (setConn s i { st with best_encoder := none })
  else
    match dev.best_encoder i with
    | none => .error 22
    | some newEnc =>
      if some newEnc = st.best_encoder then .ok s
      else
        let s2 :=
          match get_current_crtc_for_encoder dev newEnc with
          | some ec => steal_encoder dev s newEnc ec
          | none => s
        match s2.conn i with
        | none => .ok s2
        | some st2 =>
          let s3 := setConn s2 i { st2 with best_encoder := some newEnc }
          .ok (markCrtcModeChanged s3 st2.crtc)

/-- update_connector_routing (lines 151-246). -/
def update_connector_routing (dev : DisplayDev) (s : AtomicState) (i : Nat) :
    Except Nat AtomicState :=
  match s.conn i with
  | none => .ok s
  | some st =>
    let s :=
      if (dev.connCur i).crtc ≠ st.crtc then
        markCrtcModeChanged (markCrtcModeChanged s (dev.connCur i).crtc) st.crtc
      else s
    update_connector_routing_core dev s i st

/-- First loop of mode_fixup (lines 258-265): crtcs with mode_changed copy the
requested mode into adjusted_mode. -/
def modeFixupCopyStep (s : AtomicState) (i : Nat) : AtomicState :=
  match s.crtc i with
  | none => s
  | some cs =>
    if cs.mode_changed then setCrtc s i { cs with adjusted_mode := cs.mode } else s

/-- Second loop of mode_fixup (lines 267-309): per connector with both crtc
and encoder, run the optional bridge fixup then the encoder fixup on the
shared adjusted_mode; a false result is -EINVAL. -/
def modeFixupConnStep (dev : DisplayDev) (s : AtomicState) (i : Nat) :
    Except Nat AtomicState :=
  match s.conn i with
  | none => .ok s
  | some st =>
    match st.crtc, st.best_encoder with
    | some c, some enc =>
      match s.crtc c with
      | none => .ok s
      | some cs =>
        let adj1 :=
          match dev.encBridgeFixup enc with
          | some bf => bf cs.mode cs.adjusted_mode
          | none => some cs.adjusted_mode
        match adj1 with
        | none => .error 22
        | some a1 =>
          match dev.encModeFixup enc cs.mode a1 with
          | none => .error 22
          | some a2 => .ok (setCrtc s c { cs with adjusted_mode := a2 })
    | _, _ => .ok s

/-- Third loop of mode_fixup (lines 311-329): crtc-level fixups for crtcs
needing a full modeset. -/
def modeFixupCrtcStep (dev : DisplayDev) (s : AtomicState) (i : Nat) :
    Except Nat AtomicState :=
  match s.crtc i with
  | none => .ok s
  | some cs =>
    if cs.mode_changed then
      match dev.crtcModeFixup i cs.mode cs.adjusted_mode with
      | none => .error 22
      | some a => .ok (setCrtc s i { cs with adjusted_mode := a })
    else .ok s

/-- mode_fixup (lines 248-332). -/
def mode_fixup (dev : DisplayDev) (s0 : AtomicState) : Except Nat AtomicState :=
  let s1 := foldIdx modeFixupCopyStep s0 dev.ncrtcs
  match runSeq (modeFixupConnStep dev) s1 dev.nconnectors with
  | .error e2 => .error e2
  | .ok s2 => runSeq (modeFixupCrtcStep dev) s2 dev.ncrtcs

/-- Modelled from the spec: drm_atomic_add_affected_connectors — pull every
connector whose committed state routes to the crtc into the transaction. -/
def add_affected_connectors (dev : DisplayDev) (s : AtomicState) (c : Nat) : AtomicState :=
  foldIdx
    (fun s i => if (dev.connCur i).crtc = some c then (getConnState dev s i).1 else s)
    s dev.nconnectors

/-- Modelled from the spec: drm_atomic_connectors_for_crtc — number of staged
connector states routing to the crtc. -/
def connectors_for_crtc (s : AtomicState) (n : Nat) (c : Nat) : Nat :=
  (List.range n).countP (fun i => decide ((s.conn i).bind ConnState.crtc = some c))

/-- First loop of drm_atomic_helper_check_prepare (lines 344-362): flag
mode_changed when the requested mode or enable differs from the committed. -/
def checkPrepFlagStep (dev : DisplayDev) (s : AtomicState) (i : Nat) : AtomicState :=
  match s.crtc i with
  | none => s
  | some cs =>
    let cs := if ¬((dev.crtcCur i).mode = cs.mode) then { cs with mode_changed := true }
              else cs
    let cs := if ¬((dev.crtcCur i).enable = cs.enable) then { cs with mode_changed := true }
              else cs
    setCrtc s i cs

/-- Third loop of drm_atomic_helper_check_prepare (lines 381-407): for every
staged crtc needing a full modeset, pull in its currently-connected
connectors and require enable == (number of staged connectors routed > 0). -/
def checkPrepCrtcStep (dev : DisplayDev) (s : AtomicState) (i : Nat) :
    Except Nat AtomicState :=
  match s.crtc i with
  | none => .ok s
  | some cs =>
    if ¬cs.mode_changed then .ok s
    else
      let s := add_affected_connectors dev s i
      let num := connectors_for_crtc s dev.nconnectors i
      if ¬(cs.enable = decide (0 < num)) then .error 22
      else .ok s

/-- drm_atomic_helper_check_prepare (lines 334-410). -/
def drm_atomic_helper_check_prepare (dev : DisplayDev) (s0 : AtomicState) :
    Except Nat AtomicState :=
  let s1 := foldIdx (checkPrepFlagStep dev) s0 dev.ncrtcs
  match runSeq (update_connector_routing dev) s1 dev.nconnectors with
  | .error e2 => .error e2
  | .ok s2 =>
    match runSeq (checkPrepCrtcStep dev) s2 dev.ncrtcs with
    | .error e2 => .error e2
    | .ok s3 => mode_fixup dev s3

/-- The staged-crtc half of drm_atomic_helper_plane_changed. -/
def planeChangedStaged (s : AtomicState) (ps : PlaneState) : AtomicState :=
  match ps.crtc with
  | none => s
  | some c =>
    match s.crtc c with
    | none => s
    | some cs => setCrtc s c { cs with planes_changed := true }

/-- drm_atomic_helper_plane_changed (lines 56-81): mark planes_changed on the
crtc the plane currently sits on (indexed through the legacy plane->crtc
pointer; WARN_ON and whole-function return when that staged state is absent)
and on the crtc of the staged plane state. -/
def drm_atomic_helper_plane_changed (dev : DisplayDev) (s : AtomicState)
    (ps : PlaneState) (p : Nat) : AtomicState :=
  match (dev.planeCur p).crtc with
  | some _ =>
    match dev.planeLegacyCrtc p with
    | none => s
    | some lc =>
      match s.crtc lc with
      | none => s
      | some cs => planeChangedStaged (setCrtc s lc { cs with planes_changed := true }) ps
  | none => planeChangedStaged s ps

/-- Plane loop body of drm_atomic_helper_check (lines 437-458). -/
def checkPlaneStep (dev : DisplayDev) (s : AtomicState) (p : Nat) :
    Except Nat AtomicState :=
  match s.plane p with
  | none => .ok s
  | some ps =>
    let s := drm_atomic_helper_plane_changed dev s ps p
    if dev.planeAtomicCheck p ps then .ok s else .error 22

/-- Crtc hook loop body of drm_atomic_helper_check (lines 460-478). -/
def checkCrtcStep (dev : DisplayDev) (s : AtomicState) (i : Nat) :
    Except Nat AtomicState :=
  match s.crtc i with
  | none => .ok s
  | some cs => if dev.crtcAtomicCheck i cs then .ok s else .error 22

/-- drm_atomic_helper_check (lines 426-481): check_prepare, then per-plane
plane_changed marking and atomic_check hooks, then per-crtc atomic_check. -/
def drm_atomic_helper_check (dev : DisplayDev) (s0 : AtomicState) : Except Nat AtomicState :=
  match drm_atomic_helper_check_prepare dev s0 with
  | .error e2 => .error e2
  | .ok s1 =>
    match runSeq (checkPlaneStep dev) s1 dev.nplanes with
    | .error e2 => .error e2
    | .ok s2 => runSeq (checkCrtcStep dev) s2 dev.ncrtcs

/-- drm_atomic_helper_prepare_planes (lines 933-979): call prepare_fb for
every staged plane with a framebuffer; the first failure triggers the reverse
cleanup_fb pass (external hooks, no modelled state) and propagates the error. -/
def drm_atomic_helper_prepare_planes (dev : DisplayDev) (s : AtomicState) : Option Nat :=
  (List.range dev.nplanes).findSome?
    (fun p =>
      match s.plane p with
      | some ps =>
        match ps.fb with
        | some fb => dev.prepareFb p fb
        | none => none
      | none => none)

/-- drm_atomic_helper_swap_state (lines 1114-1152): per staged object, exchange
the staged and committed states. -/
def drm_atomic_helper_swap_state (dev : DisplayDev) (s : AtomicState) :
    DisplayDev × AtomicState :=
  ({ dev with
      connCur := fun c =>
        if c < dev.nconnectors then
          match s.conn c with
          | some st => st
          | none => dev.connCur c
        else dev.connCur c,
      crtcCur := fun i =>
        if i < dev.ncrtcs then
          match s.crtc i with
          | some cs => cs
          | none => dev.crtcCur i
        else dev.crtcCur i,
      planeCur := fun p =>
        if p < dev.nplanes then
          match s.plane p with
          | some ps => ps
          | none => dev.planeCur p
        else dev.planeCur p },
   { conn := fun c =>
       if c < dev.nconnectors then
         match s.conn c with
         | some _ => some (dev.connCur c)
         | none => none
       else s.conn c,
     crtc := fun i =>
       if i < dev.ncrtcs then
         match s.crtc i with
         | some _ => some (dev.crtcCur i)
         | none => none
       else s.crtc i,
     plane := fun p =>
       if p < dev.nplanes then
         match s.plane p with
         | some _ => some (dev.planeCur p)
         | none => none
       else s.plane p })

/-- drm_atomic_helper_commit (lines 828-881). The phases after the swap
(wait_for_fences, commit_pre_planes, commit_planes, commit_post_planes,
wait_for_vblanks, cleanup_planes) act through driver hooks on hardware; the
trace component records which phases ran: 0 = prepare_planes, 1 = swap_state,
2 = fences, 3 = pre-plane, 4 = planes, 5 = post-plane, 6 = vblank,
7 = cleanup. async = true returns -EBUSY (16) before any phase. -/
def drm_atomic_helper_commit (dev : DisplayDev) (s : AtomicState) (async : Bool) :
    Option Nat × DisplayDev × AtomicState × List Nat :=
  if async then (some 16, dev, s, [])
  else
    match drm_atomic_helper_prepare_planes dev s with
    | some err => (some err, dev, s, [0])
    | none =>
      let ds := drm_atomic_helper_swap_state dev s
      (none, ds.1, ds.2, [0, 1, 2, 3, 4, 5, 6, 7])

/-- C9: commit with async = true is rejected with -EBUSY immediately: no plane
resource was prepared, no state was swapped, the device and the transaction
are returned exactly as passed in and the phase trace is empty. -/
theorem commit_async_rejected_before_any_phase (dev : DisplayDev) (s : AtomicState) :
    drm_atomic_helper_commit dev s true = (some 16, dev, s, []) := rfl

/-! ## Connector-routing invariants (C1). -/

/-- The per-connector invariant of C1 (amended): best_encoder iff crtc, and any
staged encoder is the one the best_encoder hook proposes for this connector. -/
def connOk (dev : DisplayDev) (c : Nat) (st : ConnState) : Prop :=
  (st.best_encoder.isSome ↔ st.crtc.isSome) ∧
  (st.best_encoder = none ∨ st.best_encoder = dev.best_encoder c)

/-- Before a connector is processed by the routing loop it either already
satisfies connOk (for instance after being stolen) or still carries its
committed best_encoder (transaction builders duplicate committed states). -/
def rawOk (dev : DisplayDev) (c : Nat) (st : ConnState) : Prop :=
  connOk dev c st ∨ st.best_encoder = (dev.connCur c).best_encoder

/-- Committed-state consistency: committed encoders come from the
best_encoder hook, the committed iff invariant holds, and the hook proposes
pairwise distinct encoders (injectivity). -/
def devConsistent (dev : DisplayDev) : Prop :=
  (∀ c, (dev.connCur c).best_encoder = none ∨
    (dev.connCur c).best_encoder = dev.best_encoder c) ∧
  (∀ c, (dev.connCur c).best_encoder = none ↔ (dev.connCur c).crtc = none) ∧
  (∀ c1 c2 e2, dev.best_encoder c1 = some e2 → dev.best_encoder c2 = some e2 → c1 = c2)

theorem setConn_conn (s : AtomicState) (i : Nat) (st : ConnState) (j : Nat) :
    (setConn s i st).conn j = if j = i then some st else s.conn j := rfl

theorem setCrtc_conn (s : AtomicState) (i : Nat) (cs : CrtcState) :
    (setCrtc s i cs).conn = s.conn := rfl

theorem getCrtcState_conn (dev : DisplayDev) (s : AtomicState) (i : Nat) :
    (getCrtcState dev s i).1.conn = s.conn := by
  unfold getCrtcState
  cases s.crtc i <;> rfl

theorem markCrtcModeChanged_conn (s : AtomicState) (oc : Option Nat) :
    (markCrtcModeChanged s oc).conn = s.conn := by
  cases oc with
  | none => rfl
  | some c =>
    cases hc : s.crtc c with
    | none => simp [markCrtcModeChanged, hc]
    | some cs => simp [markCrtcModeChanged, hc, setCrtc_conn]

theorem getConnState_conn (dev : DisplayDev) (s : AtomicState) (i j : Nat) :
    (getConnState dev s i).1.conn j =
      if s.conn i = none ∧ j = i then some (dev.connCur i) else s.conn j := by
  unfold getConnState
  cases hc : s.conn i with
  | none =>
    simp only [setConn_conn]
    by_cases hj : j = i
    · subst hj
      simp
    · simp [hj]
  | some st =>
    simp only []
    rw [if_neg]
    simp

theorem stealLoop_conn (dev : DisplayDev) (enc : Nat) :
    ∀ (n : Nat) (s : AtomicState) (c : Nat),
      (stealLoop dev enc s n).conn c =
        if c < n ∧ (dev.connCur c).best_encoder = some enc then some ⟨none, none⟩
        else s.conn c := by
  intro n
  induction n with
  | zero =>
    intro s c
    rw [if_neg]
    · rfl
    · omega
  | succ n ih =>
    intro s c
    rw [show stealLoop dev enc s (n + 1) =
        (if (dev.connCur n).best_encoder = some enc then
          setConn (getConnState dev (stealLoop dev enc s n) n).1 n
            { (getConnState dev (stealLoop dev enc s n) n).2 with
                crtc := none, best_encoder := none }
        else stealLoop dev enc s n) from rfl]
    by_cases hv : (dev.connCur n).best_encoder = some enc
    · rw [if_pos hv]
      show (setConn _ n ⟨none, none⟩).conn c = _
      rw [setConn_conn]
      by_cases hc : c = n
      · subst hc
        rw [if_pos rfl, if_pos ⟨Nat.lt_succ_self c, hv⟩]
      · rw [if_neg hc, getConnState_conn, if_neg (fun h => hc h.2), ih]
        by_cases hlt : c < n ∧ (dev.connCur c).best_encoder = some enc
        · rw [if_pos hlt, if_pos ⟨by omega, hlt.2⟩]
        · rw [if_neg hlt, if_neg (fun h => hlt ⟨by omega, h.2⟩)]
    · rw [if_neg hv, ih]
      by_cases hlt : c < n ∧ (dev.connCur c).best_encoder = some enc
      · rw [if_pos hlt, if_pos ⟨by omega, hlt.2⟩]
      · rw [if_neg hlt, if_neg (fun h => by
          rcases Nat.lt_succ_iff_lt_or_eq.mp h.1 with h1 | h1
          · exact hlt ⟨h1, h.2⟩
          · exact hv (h1 ▸ h.2))]

theorem steal_encoder_conn (dev : DisplayDev) (s : AtomicState) (enc ec c : Nat) :
    (steal_encoder dev s enc ec).conn c =
      if c < dev.nconnectors ∧ (dev.connCur c).best_encoder = some enc then
        some ⟨none, none⟩
      else s.conn c := by
  unfold steal_encoder
  rw [stealLoop_conn]
  by_cases h : c < dev.nconnectors ∧ (dev.connCur c).best_encoder = some enc
  · rw [if_pos h, if_pos h]
  · rw [if_neg h, if_neg h, setCrtc_conn, getCrtcState_conn]

theorem connOk_stolen (dev : DisplayDev) (c : Nat) : connOk dev c ⟨none, none⟩ := by
  constructor
  · simp
  · left
    rfl

theorem update_connector_routing_core_ok (dev : DisplayDev) (hdev : devConsistent dev)
    (s : AtomicState) (k : Nat) (st : ConnState) (s' : AtomicState)
    (hok : update_connector_routing_core dev s k st = .ok s')
    (hck : s.conn k = some st) (hraw : rawOk dev k st) :
    (∀ stx, s'.conn k = some stx → connOk dev k stx) ∧
    (∀ c stx, c ≠ k → s'.conn c = some stx → stx = ⟨none, none⟩ ∨ s.conn c = some stx) := by
  simp only [update_connector_routing_core] at hok
  split at hok
  · -- staged crtc is none: disable the connector
    rename_i hcn
    cases hok
    constructor
    · intro stx hx
      rw [setConn_conn, if_pos rfl] at hx
      cases hx
      exact ⟨by simp [hcn], Or.inl rfl⟩
    · intro c stx hc hx
      rw [setConn_conn, if_neg hc] at hx
      exact Or.inr hx
  · -- staged crtc set
    rename_i hcs
    split at hok
    · -- best_encoder hook returned none: -EINVAL
      cases hok
    · rename_i newEnc henc
      split at hok
      · -- encoder unchanged
        rename_i hkeep
        cases hok
        constructor
        · intro stx hx
          rw [hck] at hx
          cases hx
          refine ⟨?_, Or.inr ?_⟩
          · rw [← hkeep]
            simp only [Option.isSome_some, true_iff]
            exact Option.isSome_iff_ne_none.mpr hcs
          · rw [← hkeep, henc]
        · intro c stx hc hx
          exact Or.inr hx
      · rename_i hne
        -- the connector k is not a committed claimer of newEnc
        have hnv : ¬((dev.connCur k).best_encoder = some newEnc) := by
          rcases hraw with ⟨hiff, hencok⟩ | hcommit
          · rcases hencok with hb | hb
            · rw [hb] at hiff
              simp at hiff
              exact absurd hiff hcs
            · rw [henc] at hb
              exact absurd hb.symm hne
          · intro hcon
            rcases hdev.1 k with h1 | h1
            · rw [h1] at hcon
              cases hcon
            · rw [hcommit, h1, henc] at hne
              exact hne rfl
        cases hcur : get_current_crtc_for_encoder dev newEnc with
        | some ec =>
          have hs2k : (steal_encoder dev s newEnc ec).conn k = some st := by
            rw [steal_encoder_conn, if_neg (fun h => hnv h.2)]
            exact hck
          simp only [hcur, hs2k, Except.ok.injEq] at hok
          subst hok
          constructor
          · intro stx hx
            rw [markCrtcModeChanged_conn, setConn_conn, if_pos rfl] at hx
            cases hx
            refine ⟨?_, Or.inr ?_⟩
            · simp only [Option.isSome_some, true_iff]
              exact Option.isSome_iff_ne_none.mpr hcs
            · rw [henc]
          · intro c stx hc hx
            rw [markCrtcModeChanged_conn, setConn_conn, if_neg hc,
                steal_encoder_conn] at hx
            by_cases hvic : c < dev.nconnectors ∧ (dev.connCur c).best_encoder = some newEnc
            · rw [if_pos hvic] at hx
              cases hx
              exact Or.inl rfl
            · rw [if_neg hvic] at hx
              exact Or.inr hx
        | none =>
          simp only [hcur, hck, Except.ok.injEq] at hok
          subst hok
          constructor
          · intro stx hx
            rw [markCrtcModeChanged_conn, setConn_conn, if_pos rfl] at hx
            cases hx
            refine ⟨?_, Or.inr ?_⟩
            · simp only [Option.isSome_some, true_iff]
              exact Option.isSome_iff_ne_none.mpr hcs
            · rw [henc]
          · intro c stx hc hx
            rw [markCrtcModeChanged_conn, setConn_conn, if_neg hc] at hx
            exact Or.inr hx

theorem update_connector_routing_ok (dev : DisplayDev) (hdev : devConsistent dev)
    (s : AtomicState) (k : Nat) (s' : AtomicState)
    (hok : update_connector_routing dev s k = .ok s')
    (hraw : ∀ st, s.conn k = some st → rawOk dev k st) :
    (∀ stx, s'.conn k = some stx → connOk dev k stx) ∧
    (∀ c stx, c ≠ k → s'.conn c = some stx → stx = ⟨none, none⟩ ∨ s.conn c = some stx) := by
  unfold update_connector_routing at hok
  cases hck : s.conn k with
  | none =>
    simp only [hck, Except.ok.injEq] at hok
    subst hok
    constructor
    · intro stx hx
      rw [hck] at hx
      cases hx
    · intro c stx hc hx
      exact Or.inr hx
  | some st =>
    simp only [hck] at hok
    by_cases hdif : (dev.connCur k).crtc ≠ st.crtc
    · rw [if_pos hdif] at hok
      have hmc : (markCrtcModeChanged (markCrtcModeChanged s (dev.connCur k).crtc)
          st.crtc).conn = s.conn := by
        rw [markCrtcModeChanged_conn, markCrtcModeChanged_conn]
      have h := update_connector_routing_core_ok dev hdev _ k st s' hok
        (by rw [hmc]; exact hck) (hraw st hck)
      refine ⟨h.1, fun c stx hc hx => ?_⟩
      rcases h.2 c stx hc hx with h1 | h1
      · exact Or.inl h1
      · rw [hmc] at h1
        exact Or.inr h1
    · rw [if_neg hdif] at hok
      exact update_connector_routing_core_ok dev hdev s k st s' hok hck (hraw st hck)

/-- Invariant carried through the routing loop: connectors already processed
satisfy connOk; every staged connector state still satisfies rawOk. -/
def routInv (dev : DisplayDev) (k : Nat) (s : AtomicState) : Prop :=
  (∀ c st, c < k → s.conn c = some st → connOk dev c st) ∧
  (∀ c st, s.conn c = some st → rawOk dev c st)

theorem routing_loop_ok (dev : DisplayDev) (hdev : devConsistent dev) :
    ∀ (n : Nat) (s s' : AtomicState),
      runSeq (update_connector_routing dev) s n = .ok s' →
      routInv dev 0 s → routInv dev n s' := by
  intro n
  induction n with
  | zero =>
    intro s s' hok hinv
    cases hok
    exact ⟨fun c st hc => absurd hc (by omega), hinv.2⟩
  | succ n ih =>
    intro s s' hok hinv
    rw [show runSeq (update_connector_routing dev) s (n + 1) =
        (match runSeq (update_connector_routing dev) s n with
         | .error e2 => .error e2
         | .ok s2 => update_connector_routing dev s2 n) from rfl] at hok
    cases hrun : runSeq (update_connector_routing dev) s n with
    | error e2 =>
      rw [hrun] at hok
      cases hok
    | ok s2 =>
      rw [hrun] at hok
      have hinv2 := ih s s2 hrun hinv
      have hstep := update_connector_routing_ok dev hdev s2 n s' hok
        (fun st hst => hinv2.2 n st hst)
      constructor
      · intro c st hc hst
        by_cases hcn : c = n
        · subst hcn
          exact hstep.1 st hst
        · rcases hstep.2 c st hcn hst with h1 | h1
          · subst h1
            exact connOk_stolen dev c
          · exact hinv2.1 c st (by omega) h1
      · intro c st hst
        by_cases hcn : c = n
        · subst hcn
          exact Or.inl (hstep.1 st hst)
        · rcases hstep.2 c st hcn hst with h1 | h1
          · subst h1
            exact Or.inl (connOk_stolen dev c)
          · exact hinv2.2 c st h1

theorem checkPrepFlagStep_conn (dev : DisplayDev) (s : AtomicState) (i : Nat) :
    (checkPrepFlagStep dev s i).conn = s.conn := by
  cases hc : s.crtc i with
  | none => simp [checkPrepFlagStep, hc]
  | some cs => simp [checkPrepFlagStep, hc, setCrtc_conn]

theorem checkPrepFlag_loop_conn (dev : DisplayDev) :
    ∀ (n : Nat) (s : AtomicState), (foldIdx (checkPrepFlagStep dev) s n).conn = s.conn := by
  intro n
  induction n with
  | zero => intro s; rfl
  | succ n ih =>
    intro s
    show (checkPrepFlagStep dev (foldIdx (checkPrepFlagStep dev) s n) n).conn = s.conn
    rw [checkPrepFlagStep_conn, ih]

theorem modeFixupCopyStep_conn (s : AtomicState) (i : Nat) :
    (modeFixupCopyStep s i).conn = s.conn := by
  cases hc : s.crtc i with
  | none => simp [modeFixupCopyStep, hc]
  | some cs =>
    by_cases hm : cs.mode_changed
    · simp [modeFixupCopyStep, hc, hm, setCrtc_conn]
    · simp [modeFixupCopyStep, hc, hm]

theorem modeFixupCopy_loop_conn :
    ∀ (n : Nat) (s : AtomicState), (foldIdx modeFixupCopyStep s n).conn = s.conn := by
  intro n
  induction n with
  | zero => intro s; rfl
  | succ n ih =>
    intro s
    show (modeFixupCopyStep (foldIdx modeFixupCopyStep s n) n).conn = s.conn
    rw [modeFixupCopyStep_conn, ih]

theorem modeFixupConnStep_conn (dev : DisplayDev) (s s' : AtomicState) (i : Nat)
    (hok : modeFixupConnStep dev s i = .ok s') : s'.conn = s.conn := by
  unfold modeFixupConnStep at hok
  cases hcn : s.conn i with
  | none =>
    simp only [hcn, Except.ok.injEq] at hok
    subst hok
    rfl
  | some st =>
    simp only [hcn] at hok
    cases hcc : st.crtc with
    | none =>
      simp only [hcc, Except.ok.injEq] at hok
      subst hok
      rfl
    | some c =>
      cases hbe : st.best_encoder with
      | none =>
        simp only [hcc, hbe, Except.ok.injEq] at hok
        subst hok
        rfl
      | some enc =>
        simp only [hcc, hbe] at hok
        cases hcs : s.crtc c with
        | none =>
          simp only [hcs, Except.ok.injEq] at hok
          subst hok
          rfl
        | some cs =>
          simp only [hcs] at hok
          cases hbf : dev.encBridgeFixup enc with
          | some bf =>
            simp only [hbf] at hok
            cases ha1 : bf cs.mode cs.adjusted_mode with
            | none =>
              simp only [ha1] at hok
              cases hok
            | some a1 =>
              simp only [ha1] at hok
              cases ha2 : dev.encModeFixup enc cs.mode a1 with
              | none =>
                simp only [ha2] at hok
                cases hok
              | some a2 =>
                simp only [ha2, Except.ok.injEq] at hok
                subst hok
                rw [setCrtc_conn]
          | none =>
            simp only [hbf] at hok
            cases ha2 : dev.encModeFixup enc cs.mode cs.adjusted_mode with
            | none =>
              simp only [ha2] at hok
              cases hok
            | some a2 =>
              simp only [ha2, Except.ok.injEq] at hok
              subst hok
              rw [setCrtc_conn]

theorem modeFixupConn_loop_conn (dev : DisplayDev) :
    ∀ (n : Nat) (s s' : AtomicState),
      runSeq (modeFixupConnStep dev) s n = .ok s' → s'.conn = s.conn := by
  intro n
  induction n with
  | zero =>
    intro s s' hok
    cases hok
    rfl
  | succ n ih =>
    intro s s' hok
    rw [show runSeq (modeFixupConnStep dev) s (n + 1) =
        (match runSeq (modeFixupConnStep dev) s n with
         | .error e2 => .error e2
         | .ok s2 => modeFixupConnStep dev s2 n) from rfl] at hok
    cases hrun : runSeq (modeFixupConnStep dev) s n with
    | error e2 =>
      rw [hrun] at hok
      cases hok
    | ok s2 =>
      rw [hrun] at hok
      rw [modeFixupConnStep_conn dev s2 s' n hok]
      exact ih s s2 hrun

theorem modeFixupCrtcStep_conn (dev : DisplayDev) (s s' : AtomicState) (i : Nat)
    (hok : modeFixupCrtcStep dev s i = .ok s') : s'.conn = s.conn := by
  unfold modeFixupCrtcStep at hok
  cases hc : s.crtc i with
  | none =>
    simp only [hc, Except.ok.injEq] at hok
    subst hok
    rfl
  | some cs =>
    simp only [hc] at hok
    by_cases hm : cs.mode_changed
    · rw [if_pos hm] at hok
      cases ha : dev.crtcModeFixup i cs.mode cs.adjusted_mode with
      | none =>
        simp only [ha] at hok
        cases hok
      | some a =>
        simp only [ha, Except.ok.injEq] at hok
        subst hok
        rw [setCrtc_conn]
    · rw [if_neg hm] at hok
      cases hok
      rfl

theorem modeFixupCrtc_loop_conn (dev : DisplayDev) :
    ∀ (n : Nat) (s s' : AtomicState),
      runSeq (modeFixupCrtcStep dev) s n = .ok s' → s'.conn = s.conn := by
  intro n
  induction n with
  | zero =>
    intro s s' hok
    cases hok
    rfl
  | succ n ih =>
    intro s s' hok
    rw [show runSeq (modeFixupCrtcStep dev) s (n + 1) =
        (match runSeq (modeFixupCrtcStep dev) s n with
         | .error e2 => .error e2
         | .ok s2 => modeFixupCrtcStep dev s2 n) from rfl] at hok
    cases hrun : runSeq (modeFixupCrtcStep dev) s n with
    | error e2 =>
      rw [hrun] at hok
      cases hok
    | ok s2 =>
      rw [hrun] at hok
      rw [modeFixupCrtcStep_conn dev s2 s' n hok]
      exact ih s s2 hrun

theorem mode_fixup_conn (dev : DisplayDev) (s s' : AtomicState)
    (hok : mode_fixup dev s = .ok s') : s'.conn = s.conn := by
  simp only [mode_fixup] at hok
  cases hrun : runSeq (modeFixupConnStep dev) (foldIdx modeFixupCopyStep s dev.ncrtcs)
      dev.nconnectors with
  | error e2 =>
    rw [hrun] at hok
    cases hok
  | ok s2 =>
    rw [hrun] at hok
    rw [modeFixupCrtc_loop_conn dev dev.ncrtcs s2 s' hok,
        modeFixupConn_loop_conn dev dev.nconnectors _ s2 hrun,
        modeFixupCopy_loop_conn dev.ncrtcs s]

theorem add_affected_connectors_conn (dev : DisplayDev) (t : Nat) :
    ∀ (n : Nat) (s : AtomicState) (c : Nat),
      (foldIdx (fun s i => if (dev.connCur i).crtc = some t then (getConnState dev s i).1
        else s) s n).conn c =
        if c < n ∧ (dev.connCur c).crtc = some t ∧ s.conn c = none then some (dev.connCur c)
        else s.conn c := by
  intro n
  induction n with
  | zero =>
    intro s c
    rw [if_neg]
    · rfl
    · omega
  | succ n ih =>
    intro s c
    rw [show (foldIdx (fun s i => if (dev.connCur i).crtc = some t then
          (getConnState dev s i).1 else s) s (n + 1)) =
        (if (dev.connCur n).crtc = some t then
          (getConnState dev (foldIdx (fun s i => if (dev.connCur i).crtc = some t then
            (getConnState dev s i).1 else s) s n) n).1
         else foldIdx (fun s i => if (dev.connCur i).crtc = some t then
            (getConnState dev s i).1 else s) s n) from rfl]
    by_cases hv : (dev.connCur n).crtc = some t
    · rw [if_pos hv, getConnState_conn]
      have h1 : (foldIdx (fun s i => if (dev.connCur i).crtc = some t then
          (getConnState dev s i).1 else s) s n).conn n = s.conn n := by
        rw [ih]
        exact if_neg (fun h => absurd h.1 (Nat.lt_irrefl n))
      by_cases hc : c = n
      · rw [hc, h1]
        by_cases hnone : s.conn n = none
        · rw [if_pos ⟨hnone, rfl⟩, if_pos ⟨by omega, hv, hnone⟩]
        · rw [if_neg (fun h => hnone h.1), if_neg (fun h => hnone h.2.2)]
      · rw [if_neg (fun h => hc h.2), ih]
        by_cases hprev : c < n ∧ (dev.connCur c).crtc = some t ∧ s.conn c = none
        · rw [if_pos hprev, if_pos ⟨by omega, hprev.2⟩]
        · rw [if_neg hprev, if_neg (fun h => hprev ⟨by omega, h.2⟩)]
    · rw [if_neg hv, ih]
      by_cases hprev : c < n ∧ (dev.connCur c).crtc = some t ∧ s.conn c = none
      · rw [if_pos hprev, if_pos ⟨by omega, hprev.2⟩]
      · rw [if_neg hprev, if_neg (fun h => by
          rcases Nat.lt_succ_iff_lt_or_eq.mp h.1 with h1 | h1
          · exact hprev ⟨h1, h.2⟩
          · exact hv (h1 ▸ h.2.1))]

theorem connOk_committed (dev : DisplayDev) (hdev : devConsistent dev) (c : Nat) :
    connOk dev c (dev.connCur c) := by
  refine ⟨?_, hdev.1 c⟩
  rw [Option.isSome_iff_ne_none, Option.isSome_iff_ne_none]
  constructor
  · intro h1 h2
    exact h1 ((hdev.2.1 c).mpr h2)
  · intro h1 h2
    exact h1 ((hdev.2.1 c).mp h2)

theorem checkPrepCrtcStep_cases (dev : DisplayDev) (s s' : AtomicState) (i : Nat)
    (hok : checkPrepCrtcStep dev s i = .ok s') :
    s' = s ∨ s' = add_affected_connectors dev s i := by
  unfold checkPrepCrtcStep at hok
  cases hc : s.crtc i with
  | none =>
    simp only [hc, Except.ok.injEq] at hok
    exact Or.inl hok.symm
  | some cs =>
    simp only [hc] at hok
    by_cases hm : ¬cs.mode_changed
    · rw [if_pos hm] at hok
      cases hok
      exact Or.inl rfl
    · rw [if_neg hm] at hok
      split at hok
      · cases hok
      · cases hok
        exact Or.inr rfl

theorem checkPrepCrtc_loop_connOk (dev : DisplayDev) (hdev : devConsistent dev) :
    ∀ (n : Nat) (s s' : AtomicState),
      runSeq (checkPrepCrtcStep dev) s n = .ok s' →
      (∀ c st, c < dev.nconnectors → s.conn c = some st → connOk dev c st) →
      (∀ c st, c < dev.nconnectors → s'.conn c = some st → connOk dev c st) := by
  intro n
  induction n with
  | zero =>
    intro s s' hok hq
    cases hok
    exact hq
  | succ n ih =>
    intro s s' hok hq
    rw [show runSeq (checkPrepCrtcStep dev) s (n + 1) =
        (match runSeq (checkPrepCrtcStep dev) s n with
         | .error e2 => .error e2
         | .ok s2 => checkPrepCrtcStep dev s2 n) from rfl] at hok
    cases hrun : runSeq (checkPrepCrtcStep dev) s n with
    | error e2 =>
      rw [hrun] at hok
      cases hok
    | ok s2 =>
      rw [hrun] at hok
      have hq2 := ih s s2 hrun hq
      rcases checkPrepCrtcStep_cases dev s2 s' n hok with h1 | h1
      · subst h1
        exact hq2
      · subst h1
        intro c st hcn hst
        unfold add_affected_connectors at hst
        rw [add_affected_connectors_conn] at hst
        by_cases hadd : c < dev.nconnectors ∧ (dev.connCur c).crtc = some n ∧ s2.conn c = none
        · rw [if_pos hadd] at hst
          cases hst
          exact connOk_committed dev hdev c
        · rw [if_neg hadd] at hst
          exact hq2 c st hcn hst

theorem planeChangedStaged_conn (s : AtomicState) (ps : PlaneState) :
    (planeChangedStaged s ps).conn = s.conn := by
  cases hc : ps.crtc with
  | none => simp [planeChangedStaged, hc]
  | some c =>
    cases hs : s.crtc c with
    | none => simp [planeChangedStaged, hc, hs]
    | some cs => simp [planeChangedStaged, hc, hs, setCrtc_conn]

theorem drm_atomic_helper_plane_changed_conn (dev : DisplayDev) (s : AtomicState)
    (ps : PlaneState) (p : Nat) :
    (drm_atomic_helper_plane_changed dev s ps p).conn = s.conn := by
  unfold drm_atomic_helper_plane_changed
  cases (dev.planeCur p).crtc with
  | none => exact planeChangedStaged_conn s ps
  | some c =>
    cases dev.planeLegacyCrtc p with
    | none => rfl
    | some lc =>
      show (match s.crtc lc with
        | none => s
        | some cs =>
          planeChangedStaged (setCrtc s lc { cs with planes_changed := true }) ps).conn =
          s.conn
      cases s.crtc lc with
      | none => rfl
      | some cs =>
        rw [planeChangedStaged_conn, setCrtc_conn]

theorem checkPlaneStep_conn (dev : DisplayDev) (s s' : AtomicState) (p : Nat)
    (hok : checkPlaneStep dev s p = .ok s') : s'.conn = s.conn := by
  unfold checkPlaneStep at hok
  cases hp : s.plane p with
  | none =>
    simp only [hp, Except.ok.injEq] at hok
    subst hok
    rfl
  | some ps =>
    simp only [hp] at hok
    split at hok
    · cases hok
      rw [drm_atomic_helper_plane_changed_conn]
    · cases hok

theorem checkPlane_loop_conn (dev : DisplayDev) :
    ∀ (n : Nat) (s s' : AtomicState),
      runSeq (checkPlaneStep dev) s n = .ok s' → s'.conn = s.conn := by
  intro n
  induction n with
  | zero =>
    intro s s' hok
    cases hok
    rfl
  | succ n ih =>
    intro s s' hok
    rw [show runSeq (checkPlaneStep dev) s (n + 1) =
        (match runSeq (checkPlaneStep dev) s n with
         | .error e2 => .error e2
         | .ok s2 => checkPlaneStep dev s2 n) from rfl] at hok
    cases hrun : runSeq (checkPlaneStep dev) s n with
    | error e2 =>
      rw [hrun] at hok
      cases hok
    | ok s2 =>
      rw [hrun] at hok
      rw [checkPlaneStep_conn dev s2 s' n hok]
      exact ih s s2 hrun

theorem checkCrtcStep_id (dev : DisplayDev) (s s' : AtomicState) (i : Nat)
    (hok : checkCrtcStep dev s i = .ok s') : s' = s := by
  unfold checkCrtcStep at hok
  cases hc : s.crtc i with
  | none =>
    simp only [hc, Except.ok.injEq] at hok
    exact hok.symm
  | some cs =>
    simp only [hc] at hok
    split at hok
    · cases hok
      rfl
    · cases hok

theorem checkCrtc_loop_id (dev : DisplayDev) :
    ∀ (n : Nat) (s s' : AtomicState),
      runSeq (checkCrtcStep dev) s n = .ok s' → s' = s := by
  intro n
  induction n with
  | zero =>
    intro s s' hok
    cases hok
    rfl
  | succ n ih =>
    intro s s' hok
    rw [show runSeq (checkCrtcStep dev) s (n + 1) =
        (match runSeq (checkCrtcStep dev) s n with
         | .error e2 => .error e2
         | .ok s2 => checkCrtcStep dev s2 n) from rfl] at hok
    cases hrun : runSeq (checkCrtcStep dev) s n with
    | error e2 =>
      rw [hrun] at hok
      cases hok
    | ok s2 =>
      rw [hrun] at hok
      rw [checkCrtcStep_id dev s2 s' n hok]
      exact ih s s2 hrun

/-- Two unrouted committed connectors whose best_encoder hooks both propose
encoder 7: the hook is not injective across connectors. -/
def devCE : DisplayDev where
  nconnectors := 2
  ncrtcs := 2
  nplanes := 0
  connCur := fun _ => ⟨none, none⟩
  crtcCur := fun _ => ⟨0, 0, false, false, false⟩
  planeCur := fun _ => ⟨none, none⟩
  planeLegacyCrtc := fun _ => none
  best_encoder := fun _ => some 7
  encBridgeFixup := fun _ => none
  encModeFixup := fun _ _ a => some a
  crtcModeFixup := fun _ _ a => some a
  planeAtomicCheck := fun _ _ => true
  crtcAtomicCheck := fun _ _ => true
  prepareFb := fun _ _ => none

/-- A transaction routing connector 0 to crtc 0 and connector 1 to crtc 1,
both crtcs enabled. -/
def sCE : AtomicState where
  conn := fun c => if c = 0 then some ⟨some 0, none⟩ else if c = 1 then some ⟨some 1, none⟩
    else none
  crtc := fun i => if i = 0 then some ⟨0, 0, true, false, false⟩
    else if i = 1 then some ⟨0, 0, true, false, false⟩ else none
  plane := fun _ => none

/-- C1 (counterexample): as stated the claim is false. steal_encoder scans only
the COMMITTED states of the other connectors (connector->state->best_encoder,
line 122), so two connectors newly routed in the same transaction can both be
handed the same encoder by their best_encoder hooks and the check phase
succeeds with both staged states holding encoder 7. -/
theorem check_duplicate_encoder_counterexample :
    ((drm_atomic_helper_check devCE sCE).toOption.map
      (fun s1 => ((s1.conn 0).map ConnState.best_encoder,
                  (s1.conn 1).map ConnState.best_encoder)))
      = some (some (some 7), some (some 7)) := by rfl

/-- C1 (amended): under the committed-state consistency the spec assumes — the
committed encoder of each connector is the one its best_encoder hook proposes
(or none), a committed encoder is held iff a crtc is attached, and the hooks
propose pairwise distinct encoders — and with every staged connector state
entering the check with its committed best_encoder (transactions duplicate
committed states), a successful drm_atomic_helper_check leaves every staged
connector state with best_encoder set iff crtc is set, and no two staged
connector states hold the same encoder. -/
theorem check_connector_invariants (dev : DisplayDev) (hdev : devConsistent dev)
    (s0 s1 : AtomicState)
    (hinit : ∀ c st, s0.conn c = some st → st.best_encoder = (dev.connCur c).best_encoder)
    (hok : drm_atomic_helper_check dev s0 = .ok s1) :
    (∀ c st, c < dev.nconnectors → s1.conn c = some st →
      (st.best_encoder.isSome ↔ st.crtc.isSome)) ∧
    (∀ c1 c2 st1 st2 e2, c1 < dev.nconnectors → c2 < dev.nconnectors →
      s1.conn c1 = some st1 → s1.conn c2 = some st2 →
      st1.best_encoder = some e2 → st2.best_encoder = some e2 → c1 = c2) := by
  unfold drm_atomic_helper_check at hok
  cases hprep : drm_atomic_helper_check_prepare dev s0 with
  | error e2 =>
    rw [hprep] at hok
    cases hok
  | ok sP =>
    rw [hprep] at hok
    have hok2 : (match runSeq (checkPlaneStep dev) sP dev.nplanes with
      | Except.error e2 => (Except.error e2 : Except Nat AtomicState)
      | Except.ok s2 => runSeq (checkCrtcStep dev) s2 dev.ncrtcs) = Except.ok s1 := hok
    cases hpl : runSeq (checkPlaneStep dev) sP dev.nplanes with
    | error e2 =>
      rw [hpl] at hok2
      cases hok2
    | ok sQ =>
      rw [hpl] at hok2
      have hok3 : runSeq (checkCrtcStep dev) sQ dev.ncrtcs = Except.ok s1 := hok2
      have hid := checkCrtc_loop_id dev dev.ncrtcs sQ s1 hok3
      subst hid
      have hconn : s1.conn = sP.conn := checkPlane_loop_conn dev dev.nplanes sP s1 hpl
      have hkey : ∀ c st, c < dev.nconnectors → sP.conn c = some st → connOk dev c st := by
        simp only [drm_atomic_helper_check_prepare] at hprep
        cases hrt : runSeq (update_connector_routing dev)
            (foldIdx (checkPrepFlagStep dev) s0 dev.ncrtcs) dev.nconnectors with
        | error e2 =>
          rw [hrt] at hprep
          cases hprep
        | ok sR =>
          rw [hrt] at hprep
          have hprep2 : (match runSeq (checkPrepCrtcStep dev) sR dev.ncrtcs with
            | Except.error e2 => (Except.error e2 : Except Nat AtomicState)
            | Except.ok s3 => mode_fixup dev s3) = Except.ok sP := hprep
          cases hcp : runSeq (checkPrepCrtcStep dev) sR dev.ncrtcs with
          | error e2 =>
            rw [hcp] at hprep2
            cases hprep2
          | ok sC =>
            rw [hcp] at hprep2
            have hprep3 : mode_fixup dev sC = Except.ok sP := hprep2
            have hfc := mode_fixup_conn dev sC sP hprep3
            have hinv0 : routInv dev 0 (foldIdx (checkPrepFlagStep dev) s0 dev.ncrtcs) := by
              constructor
              · intro c st hc
                exact absurd hc (by omega)
              · intro c st hst
                rw [checkPrepFlag_loop_conn] at hst
                exact Or.inr (hinit c st hst)
            have hR := routing_loop_ok dev hdev dev.nconnectors _ sR hrt hinv0
            have hC := checkPrepCrtc_loop_connOk dev hdev dev.ncrtcs sR sC hcp hR.1
            intro c st hc hst
            rw [hfc] at hst
            exact hC c st hc hst
      refine ⟨?_, ?_⟩
      · intro c st hc hst
        rw [hconn] at hst
        exact (hkey c st hc hst).1
      · intro c1 c2 st1 st2 e2 hc1 hc2 h1 h2 hb1 hb2
        rw [hconn] at h1 h2
        have k1 := (hkey c1 st1 hc1 h1).2
        have k2 := (hkey c2 st2 hc2 h2).2
        rcases k1 with k1 | k1
        · rw [k1] at hb1
          cases hb1
        · rcases k2 with k2 | k2
          · rw [k2] at hb2
            cases hb2
          · rw [k1] at hb1
            rw [k2] at hb2
            exact hdev.2.2 c1 c2 e2 hb1 hb2

/-- A consistent one-connector, one-crtc device: no committed routing, the
best_encoder hook proposes encoder 5 for connector 0 only. -/
def devW : DisplayDev where
  nconnectors := 1
  ncrtcs := 1
  nplanes := 0
  connCur := fun _ => ⟨none, none⟩
  crtcCur := fun _ => ⟨0, 0, false, false, false⟩
  planeCur := fun _ => ⟨none, none⟩
  planeLegacyCrtc := fun _ => none
  best_encoder := fun c => if c = 0 then some 5 else none
  encBridgeFixup := fun _ => none
  encModeFixup := fun _ _ a => some a
  crtcModeFixup := fun _ _ a => some a
  planeAtomicCheck := fun _ _ => true
  crtcAtomicCheck := fun _ _ => true
  prepareFb := fun _ _ => none

/-- A transaction enabling crtc 0 and routing connector 0 to it. -/
def s0W : AtomicState where
  conn := fun c => if c = 0 then some ⟨some 0, none⟩ else none
  crtc := fun i => if i = 0 then some ⟨0, 0, true, false, false⟩ else none
  plane := fun _ => none

/-- The state the check phase produces on devW and s0W. -/
def s1W : AtomicState :=
  match drm_atomic_helper_check devW s0W with
  | Except.ok s => s
  | Except.error _ => s0W

/-- The staged connector state the check phase leaves for connector 0. -/
def stW : ConnState := ⟨some 0, some 5⟩

theorem check_connector_invariants_witness :
    s1W.conn 0 = some stW ∧ (stW.best_encoder.isSome ↔ stW.crtc.isSome) ∧ 0 = 0 :=
  ⟨by rfl,
   (check_connector_invariants devW
      ⟨fun _ => Or.inl rfl, fun _ => Iff.rfl,
       by
        intro c1 c2 e2 h1 h2
        simp only [devW] at h1 h2
        by_cases hc1 : c1 = 0
        · by_cases hc2 : c2 = 0
          · rw [hc1, hc2]
          · rw [if_neg hc2] at h2
            exact Option.noConfusion h2
        · rw [if_neg hc1] at h1
          exact Option.noConfusion h1⟩
      s0W s1W
      (by
        intro c st h
        by_cases hc : c = 0
        · subst hc
          simp only [s0W, if_true] at h
          cases h
          rfl
        · simp only [s0W] at h
          rw [if_neg hc] at h
          exact Option.noConfusion h)
      (by rfl)).1 0 stW (by decide) (by rfl),
   (check_connector_invariants devW
      ⟨fun _ => Or.inl rfl, fun _ => Iff.rfl,
       by
        intro c1 c2 e2 h1 h2
        simp only [devW] at h1 h2
        by_cases hc1 : c1 = 0
        · by_cases hc2 : c2 = 0
          · rw [hc1, hc2]
          · rw [if_neg hc2] at h2
            exact Option.noConfusion h2
        · rw [if_neg hc1] at h1
          exact Option.noConfusion h1⟩
      s0W s1W
      (by
        intro c st h
        by_cases hc : c = 0
        · subst hc
          simp only [s0W, if_true] at h
          cases h
          rfl
        · simp only [s0W] at h
          rw [if_neg hc] at h
          exact Option.noConfusion h)
      (by rfl)).2 0 0 stW stW 5 (by decide) (by decide) (by rfl) (by rfl) (by rfl) (by rfl)⟩

theorem setCrtc_crtc (s : AtomicState) (i : Nat) (cs : CrtcState) (j : Nat) :
    (setCrtc s i cs).crtc j = if j = i then some cs else s.crtc j := rfl

theorem getConnState_crtc (dev : DisplayDev) (s : AtomicState) (i : Nat) :
    (getConnState dev s i).1.crtc = s.crtc := by
  unfold getConnState
  cases s.conn i <;> rfl

theorem add_affected_connectors_crtc (dev : DisplayDev) (t : Nat) :
    ∀ (n : Nat) (s : AtomicState),
      (foldIdx (fun s i => if (dev.connCur i).crtc = some t then (getConnState dev s i).1
        else s) s n).crtc = s.crtc := by
  intro n
  induction n with
  | zero => intro s; rfl
  | succ n ih =>
    intro s
    rw [show foldIdx (fun s i => if (dev.connCur i).crtc = some t then (getConnState dev s i).1
        else s) s (n + 1) =
        (fun s i => if (dev.connCur i).crtc = some t then (getConnState dev s i).1 else s)
          (foldIdx (fun s i => if (dev.connCur i).crtc = some t then (getConnState dev s i).1
            else s) s n) n from rfl]
    by_cases hc : (dev.connCur n).crtc = some t
    · show (if (dev.connCur n).crtc = some t then (getConnState dev _ n).1 else _).crtc = s.crtc
      rw [if_pos hc, getConnState_crtc]
      exact ih s
    · show (if (dev.connCur n).crtc = some t then (getConnState dev _ n).1 else _).crtc = s.crtc
      rw [if_neg hc]
      exact ih s

theorem connectors_for_crtc_conn_eq (s t2 : AtomicState) (n i : Nat) (h : t2.conn = s.conn) :
    connectors_for_crtc t2 n i = connectors_for_crtc s n i := by
  unfold connectors_for_crtc
  rw [h]

theorem connectors_for_crtc_congr (s t2 : AtomicState) (n i : Nat)
    (h : ∀ c, c < n → ((t2.conn c).bind ConnState.crtc = some i ↔
      (s.conn c).bind ConnState.crtc = some i)) :
    connectors_for_crtc t2 n i = connectors_for_crtc s n i := by
  unfold connectors_for_crtc
  apply List.countP_congr
  intro a ha
  rw [List.mem_range] at ha
  show decide ((t2.conn a).bind ConnState.crtc = some i) = true ↔
    decide ((s.conn a).bind ConnState.crtc = some i) = true
  rw [decide_eq_true_eq, decide_eq_true_eq]
  exact h a ha

/-- Per-crtc postcondition of the modeset-connector loop: every staged crtc
below k needing a full modeset has enable equal to having at least one routed
staged connector, and all its committed-connected connectors staged. -/
def crtcPrepOk (dev : DisplayDev) (k : Nat) (s : AtomicState) : Prop :=
  ∀ i cs, i < k → s.crtc i = some cs → cs.mode_changed = true →
    (cs.enable = decide (0 < connectors_for_crtc s dev.nconnectors i)) ∧
    (∀ c, c < dev.nconnectors → (dev.connCur c).crtc = some i →
      (s.conn c).isSome = true)

theorem checkPrepCrtcStep_spec (dev : DisplayDev) (s s2 : AtomicState) (i : Nat)
    (hok : checkPrepCrtcStep dev s i = .ok s2) :
    s2.crtc = s.crtc ∧
    (∀ c, s2.conn c = s.conn c ∨
      (s.conn c = none ∧ s2.conn c = some (dev.connCur c) ∧
        (dev.connCur c).crtc = some i)) ∧
    (∀ cs, s.crtc i = some cs → cs.mode_changed = true →
      (cs.enable = decide (0 < connectors_for_crtc s2 dev.nconnectors i)) ∧
      (∀ c, c < dev.nconnectors → (dev.connCur c).crtc = some i →
        (s2.conn c).isSome = true)) := by
  unfold checkPrepCrtcStep at hok
  cases hc : s.crtc i with
  | none =>
    simp only [hc, Except.ok.injEq] at hok
    subst hok
    refine ⟨rfl, fun c => Or.inl rfl, ?_⟩
    intro cs hcs
    cases hcs
  | some cs0 =>
    simp only [hc] at hok
    by_cases hm : ¬cs0.mode_changed
    · rw [if_pos hm] at hok
      cases hok
      refine ⟨rfl, fun c => Or.inl rfl, ?_⟩
      intro cs hcs hmc
      cases hcs
      exact absurd hmc hm
    · rw [if_neg hm] at hok
      split at hok
      · cases hok
      next h =>
        cases hok
        have hconnchar : ∀ c, (add_affected_connectors dev s i).conn c =
            if c < dev.nconnectors ∧ (dev.connCur c).crtc = some i ∧ s.conn c = none
            then some (dev.connCur c) else s.conn c := by
          intro c
          unfold add_affected_connectors
          exact add_affected_connectors_conn dev i dev.nconnectors s c
        refine ⟨?_, ?_, ?_⟩
        · unfold add_affected_connectors
          exact add_affected_connectors_crtc dev i dev.nconnectors s
        · intro c
          rw [hconnchar c]
          by_cases hx : c < dev.nconnectors ∧ (dev.connCur c).crtc = some i ∧ s.conn c = none
          · rw [if_pos hx]
            exact Or.inr ⟨hx.2.2, rfl, hx.2.1⟩
          · rw [if_neg hx]
            exact Or.inl rfl
        · intro cs hcs hmc
          cases hcs
          constructor
          · exact not_not.mp h
          · intro c hcn hcc
            rw [hconnchar c]
            by_cases hnone : s.conn c = none
            · rw [if_pos ⟨hcn, hcc, hnone⟩]
              rfl
            · rw [if_neg (fun hx => hnone hx.2.2)]
              exact Option.isSome_iff_ne_none.mpr hnone

theorem checkPrepCrtc_loop_prepOk (dev : DisplayDev) :
    ∀ (n : Nat) (s s2 : AtomicState),
      runSeq (checkPrepCrtcStep dev) s n = .ok s2 → crtcPrepOk dev n s2 := by
  intro n
  induction n with
  | zero =>
    intro s s2 hok
    cases hok
    intro i cs hi
    exact absurd hi (by omega)
  | succ n ih =>
    intro s s2 hok
    rw [show runSeq (checkPrepCrtcStep dev) s (n + 1) =
        (match runSeq (checkPrepCrtcStep dev) s n with
         | .error e2 => .error e2
         | .ok sm => checkPrepCrtcStep dev sm n) from rfl] at hok
    cases hrun : runSeq (checkPrepCrtcStep dev) s n with
    | error e2 =>
      rw [hrun] at hok
      cases hok
    | ok sm =>
      rw [hrun] at hok
      have hprev := ih s sm hrun
      obtain ⟨hcrtc, hconn, hstep⟩ := checkPrepCrtcStep_spec dev sm s2 n hok
      intro i cs hi hcs hmc
      by_cases hin : i = n
      · subst hin
        rw [hcrtc] at hcs
        exact hstep cs hcs hmc
      · have hi2 : i < n := by omega
        rw [hcrtc] at hcs
        obtain ⟨hen, hpres⟩ := hprev i cs hi2 hcs hmc
        constructor
        · rw [hen]
          have hcnt : connectors_for_crtc s2 dev.nconnectors i =
              connectors_for_crtc sm dev.nconnectors i := by
            apply connectors_for_crtc_congr
            intro c hcn
            rcases hconn c with hsame | ⟨hold, hnew, hcc⟩
            · rw [hsame]
            · rw [hold, hnew]
              constructor
              · intro hx
                have hx2 : (dev.connCur c).crtc = some i := hx
                rw [hcc] at hx2
                cases hx2
                omega
              · intro hx
                exact Option.noConfusion hx
          rw [hcnt]
        · intro c hcn hcc
          rcases hconn c with hsame | ⟨hold, hnew, hcc2⟩
          · rw [hsame]
            exact hpres c hcn hcc
          · rw [hnew]
            rfl

/-- mode_fixup only rewrites adjusted_mode: every staged crtc state after a
step keeps the enable, mode_changed and mode fields it had before. -/
def crtcSim (s t2 : AtomicState) : Prop :=
  ∀ i cs2, t2.crtc i = some cs2 → ∃ cs, s.crtc i = some cs ∧
    cs2.enable = cs.enable ∧ cs2.mode_changed = cs.mode_changed ∧ cs2.mode = cs.mode

theorem crtcSim_refl (s : AtomicState) : crtcSim s s :=
  fun _ cs2 h => ⟨cs2, h, rfl, rfl, rfl⟩

theorem crtcSim_trans (s t2 u : AtomicState) (h1 : crtcSim s t2) (h2 : crtcSim t2 u) :
    crtcSim s u := by
  intro i cs2 h
  obtain ⟨csm, hm, e1, e2, e3⟩ := h2 i cs2 h
  obtain ⟨cs0, h0, f1, f2, f3⟩ := h1 i csm hm
  exact ⟨cs0, h0, e1.trans f1, e2.trans f2, e3.trans f3⟩

theorem crtcSim_setCrtc (s : AtomicState) (c : Nat) (cs : CrtcState) (a : Nat)
    (h : s.crtc c = some cs) :
    crtcSim s (setCrtc s c { cs with adjusted_mode := a }) := by
  intro i cs2 h2
  rw [setCrtc_crtc] at h2
  by_cases hic : i = c
  · rw [if_pos hic] at h2
    cases h2
    exact ⟨cs, hic ▸ h, rfl, rfl, rfl⟩
  · rw [if_neg hic] at h2
    exact ⟨cs2, h2, rfl, rfl, rfl⟩

theorem modeFixupCopyStep_sim (s : AtomicState) (i : Nat) :
    crtcSim s (modeFixupCopyStep s i) := by
  unfold modeFixupCopyStep
  cases hc : s.crtc i with
  | none => exact crtcSim_refl s
  | some cs =>
    show crtcSim s
      (if cs.mode_changed = true then setCrtc s i { cs with adjusted_mode := cs.mode } else s)
    by_cases hm : cs.mode_changed
    · rw [if_pos hm]
      exact crtcSim_setCrtc s i cs cs.mode hc
    · rw [if_neg hm]
      exact crtcSim_refl s

theorem modeFixupCopy_loop_sim : ∀ (n : Nat) (s : AtomicState),
    crtcSim s (foldIdx modeFixupCopyStep s n) := by
  intro n
  induction n with
  | zero => intro s; exact crtcSim_refl s
  | succ n ih =>
    intro s
    rw [show foldIdx modeFixupCopyStep s (n + 1) =
        modeFixupCopyStep (foldIdx modeFixupCopyStep s n) n from rfl]
    exact crtcSim_trans _ _ _ (ih s) (modeFixupCopyStep_sim _ n)

theorem modeFixupConnStep_sim (dev : DisplayDev) (s s2 : AtomicState) (i : Nat)
    (hok : modeFixupConnStep dev s i = .ok s2) : crtcSim s s2 := by
  unfold modeFixupConnStep at hok
  cases hcn : s.conn i with
  | none =>
    simp only [hcn, Except.ok.injEq] at hok
    subst hok
    exact crtcSim_refl s
  | some st =>
    simp only [hcn] at hok
    cases hc1 : st.crtc with
    | none =>
      simp only [hc1, Except.ok.injEq] at hok
      subst hok
      exact crtcSim_refl s
    | some c =>
      cases hb1 : st.best_encoder with
      | none =>
        simp only [hc1, hb1, Except.ok.injEq] at hok
        subst hok
        exact crtcSim_refl s
      | some enc =>
        simp only [hc1, hb1] at hok
        cases hcc : s.crtc c with
        | none =>
          simp only [hcc, Except.ok.injEq] at hok
          subst hok
          exact crtcSim_refl s
        | some cs =>
          simp only [hcc] at hok
          cases hbf : dev.encBridgeFixup enc with
          | none =>
            simp only [hbf] at hok
            have hok2 : (match dev.encModeFixup enc cs.mode cs.adjusted_mode with
              | none => (Except.error 22 : Except Nat AtomicState)
              | some a2 => Except.ok (setCrtc s c { cs with adjusted_mode := a2 })) =
                Except.ok s2 := hok
            cases hmf : dev.encModeFixup enc cs.mode cs.adjusted_mode with
            | none =>
              rw [hmf] at hok2
              cases hok2
            | some a2 =>
              rw [hmf] at hok2
              cases hok2
              exact crtcSim_setCrtc s c cs a2 hcc
          | some bf =>
            simp only [hbf] at hok
            cases hb2 : bf cs.mode cs.adjusted_mode with
            | none =>
              rw [hb2] at hok
              cases hok
            | some a1 =>
              rw [hb2] at hok
              have hok2 : (match dev.encModeFixup enc cs.mode a1 with
                | none => (Except.error 22 : Except Nat AtomicState)
                | some a2 => Except.ok (setCrtc s c { cs with adjusted_mode := a2 })) =
                  Except.ok s2 := hok
              cases hmf : dev.encModeFixup enc cs.mode a1 with
              | none =>
                rw [hmf] at hok2
                cases hok2
              | some a2 =>
                rw [hmf] at hok2
                cases hok2
                exact crtcSim_setCrtc s c cs a2 hcc

theorem modeFixupConn_loop_sim (dev : DisplayDev) :
    ∀ (n : Nat) (s s2 : AtomicState),
      runSeq (modeFixupConnStep dev) s n = .ok s2 → crtcSim s s2 := by
  intro n
  induction n with
  | zero =>
    intro s s2 hok
    cases hok
    exact crtcSim_refl s
  | succ n ih =>
    intro s s2 hok
    rw [show runSeq (modeFixupConnStep dev) s (n + 1) =
        (match runSeq (modeFixupConnStep dev) s n with
         | .error e2 => .error e2
         | .ok sm => modeFixupConnStep dev sm n) from rfl] at hok
    cases hrun : runSeq (modeFixupConnStep dev) s n with
    | error e2 =>
      rw [hrun] at hok
      cases hok
    | ok sm =>
      rw [hrun] at hok
      exact crtcSim_trans _ _ _ (ih s sm hrun) (modeFixupConnStep_sim dev sm s2 n hok)

theorem modeFixupCrtcStep_sim (dev : DisplayDev) (s s2 : AtomicState) (i : Nat)
    (hok : modeFixupCrtcStep dev s i = .ok s2) : crtcSim s s2 := by
  unfold modeFixupCrtcStep at hok
  cases hc : s.crtc i with
  | none =>
    simp only [hc, Except.ok.injEq] at hok
    subst hok
    exact crtcSim_refl s
  | some cs =>
    simp only [hc] at hok
    by_cases hm : cs.mode_changed
    · rw [if_pos hm] at hok
      cases hmf : dev.crtcModeFixup i cs.mode cs.adjusted_mode with
      | none =>
        rw [hmf] at hok
        cases hok
      | some a =>
        rw [hmf] at hok
        cases hok
        exact crtcSim_setCrtc s i cs a hc
    · rw [if_neg hm] at hok
      cases hok
      exact crtcSim_refl s

theorem modeFixupCrtc_loop_sim (dev : DisplayDev) :
    ∀ (n : Nat) (s s2 : AtomicState),
      runSeq (modeFixupCrtcStep dev) s n = .ok s2 → crtcSim s s2 := by
  intro n
  induction n with
  | zero =>
    intro s s2 hok
    cases hok
    exact crtcSim_refl s
  | succ n ih =>
    intro s s2 hok
    rw [show runSeq (modeFixupCrtcStep dev) s (n + 1) =
        (match runSeq (modeFixupCrtcStep dev) s n with
         | .error e2 => .error e2
         | .ok sm => modeFixupCrtcStep dev sm n) from rfl] at hok
    cases hrun : runSeq (modeFixupCrtcStep dev) s n with
    | error e2 =>
      rw [hrun] at hok
      cases hok
    | ok sm =>
      rw [hrun] at hok
      exact crtcSim_trans _ _ _ (ih s sm hrun) (modeFixupCrtcStep_sim dev sm s2 n hok)

theorem mode_fixup_sim (dev : DisplayDev) (s s2 : AtomicState)
    (hok : mode_fixup dev s = .ok s2) : crtcSim s s2 := by
  simp only [mode_fixup] at hok
  cases hrun : runSeq (modeFixupConnStep dev) (foldIdx modeFixupCopyStep s dev.ncrtcs)
      dev.nconnectors with
  | error e2 =>
    rw [hrun] at hok
    cases hok
  | ok sm =>
    rw [hrun] at hok
    exact crtcSim_trans _ _ _
      (crtcSim_trans _ _ _ (modeFixupCopy_loop_sim dev.ncrtcs s)
        (modeFixupConn_loop_sim dev dev.nconnectors _ sm hrun))
      (modeFixupCrtc_loop_sim dev dev.ncrtcs sm s2 hok)

/-- C7: when drm_atomic_helper_check_prepare succeeds, every staged crtc
needing a full modeset (mode_changed) has its enable flag equal to having at
least one staged connector routed to it — the loop returns -EINVAL otherwise,
aborting the check before anything touches the committed state — and every
connector whose committed state is connected to that crtc has been pulled
into the transaction. -/
theorem check_prepare_modeset_connectors (dev : DisplayDev) (s0 s1 : AtomicState)
    (hok : drm_atomic_helper_check_prepare dev s0 = .ok s1) :
    ∀ i cs, i < dev.ncrtcs → s1.crtc i = some cs → cs.mode_changed = true →
      (cs.enable = decide (0 < connectors_for_crtc s1 dev.nconnectors i)) ∧
      (∀ c, c < dev.nconnectors → (dev.connCur c).crtc = some i →
        (s1.conn c).isSome = true) := by
  simp only [drm_atomic_helper_check_prepare] at hok
  cases hrt : runSeq (update_connector_routing dev)
      (foldIdx (checkPrepFlagStep dev) s0 dev.ncrtcs) dev.nconnectors with
  | error e2 =>
    rw [hrt] at hok
    cases hok
  | ok sR =>
    rw [hrt] at hok
    have hok2 : (match runSeq (checkPrepCrtcStep dev) sR dev.ncrtcs with
      | Except.error e2 => (Except.error e2 : Except Nat AtomicState)
      | Except.ok s3 => mode_fixup dev s3) = Except.ok s1 := hok
    cases hcp : runSeq (checkPrepCrtcStep dev) sR dev.ncrtcs with
    | error e2 =>
      rw [hcp] at hok2
      cases hok2
    | ok sC =>
      rw [hcp] at hok2
      have hmf : mode_fixup dev sC = Except.ok s1 := hok2
      have hPrep := checkPrepCrtc_loop_prepOk dev dev.ncrtcs sR sC hcp
      have hconn := mode_fixup_conn dev sC s1 hmf
      have hsim := mode_fixup_sim dev sC s1 hmf
      intro i cs hi hcs hmc
      obtain ⟨cs0, hcs0, hen, hmc0, _⟩ := hsim i cs hcs
      obtain ⟨he, hp⟩ := hPrep i cs0 hi hcs0 (by rw [← hmc0]; exact hmc)
      constructor
      · rw [hen, he, connectors_for_crtc_conn_eq sC s1 dev.nconnectors i hconn]
      · intro c hcn hcc
        rw [hconn]
        exact hp c hcn hcc

/-- A device whose committed state has connector 0 connected to crtc 0 with
encoder 5, crtc 0 committed with mode 1. -/
def devC7 : DisplayDev where
  nconnectors := 1
  ncrtcs := 1
  nplanes := 0
  connCur := fun _ => ⟨some 0, some 5⟩
  crtcCur := fun _ => ⟨1, 1, true, false, false⟩
  planeCur := fun _ => ⟨none, none⟩
  planeLegacyCrtc := fun _ => none
  best_encoder := fun c => if c = 0 then some 5 else none
  encBridgeFixup := fun _ => none
  encModeFixup := fun _ _ a => some a
  crtcModeFixup := fun _ _ a => some a
  planeAtomicCheck := fun _ _ => true
  crtcAtomicCheck := fun _ _ => true
  prepareFb := fun _ _ => none

/-- A transaction staging only crtc 0 with a new mode 0: the mode change
forces a full modeset and the committed connector must be pulled in. -/
def s0C7 : AtomicState where
  conn := fun _ => none
  crtc := fun i => if i = 0 then some ⟨0, 0, true, false, false⟩ else none
  plane := fun _ => none

/-- The state drm_atomic_helper_check_prepare produces on devC7 and s0C7. -/
def s1C7 : AtomicState :=
  match drm_atomic_helper_check_prepare devC7 s0C7 with
  | Except.ok s => s
  | Except.error _ => s0C7

/-- The staged crtc state the prepare phase leaves for crtc 0. -/
def csC7 : CrtcState := ⟨0, 0, true, true, false⟩

theorem check_prepare_modeset_connectors_witness :
    s1C7.crtc 0 = some csC7 ∧
    csC7.enable = decide (0 < connectors_for_crtc s1C7 devC7.nconnectors 0) ∧
    (s1C7.conn 0).isSome = true :=
  ⟨by rfl,
   (check_prepare_modeset_connectors devC7 s0C7 s1C7 (by rfl) 0 csC7 (by decide) (by rfl)
     (by rfl)).1,
   (check_prepare_modeset_connectors devC7 s0C7 s1C7 (by rfl) 0 csC7 (by decide) (by rfl)
     (by rfl)).2 0 (by decide) (by rfl)⟩
